import Mathlib

/-!
Verification of the rule-evaluation engine of `src/analyzer.py`
(`analyze_openapi_spec`, lines 257-532, and the identical rule-evaluation
portion of `analyze_openapi_url`, lines 549-820).

Modelling conventions (shallow embedding of the Python source):
* A parsed document is a JSON-like tree `JValue`; mappings are association
  lists whose iteration order is the list order (Python dicts iterate in
  insertion order) and whose keys are strings (documents are parsed from
  JSON/YAML object syntax).
* A Python runtime error escaping a function is modelled as `none`; the
  analyzer therefore has type `... → Option AnalysisResult`.
* `str.lower`/`str.upper`/`str.isalnum` are modelled on the ASCII range,
  the range exercised by the rule set.
* The external structural validator (`_validate_with_openapi_spec_validator`,
  lines 192-201) imports a third-party library; its availability and verdict
  are modelled as an explicit environment parameter `ValidatorEnv`.
-/

namespace ApyGuard

/-- A parsed JSON/YAML-like document value. -/
inductive JValue where
  | null : JValue
  | bool (b : Bool) : JValue
  | num (n : Int) : JValue
  | str (s : String) : JValue
  | arr (elems : List JValue) : JValue
  | obj (entries : List (String × JValue)) : JValue

/-- A mapping node: association list in insertion order. -/
abbrev JObj := List (String × JValue)

/-- Lookup of a key in a mapping (Python `d[k]` / `d.get(k)`). -/
def jget (o : JObj) (k : String) : Option JValue :=
  (o.find? (fun p => p.1 = k)).map (·.2)

/-- Python `d.get(k, default)`. -/
def pyGet (o : JObj) (k : String) (d : JValue) : JValue :=
  (jget o k).getD d

/-- Python `d.get(k)` (default `None`). -/
def pyGetN (o : JObj) (k : String) : JValue :=
  pyGet o k JValue.null

/-- Python `k in d` for a string key on a mapping. -/
def hasKey (o : JObj) (k : String) : Bool :=
  (jget o k).isSome

/-- Python truthiness of a value. -/
def truthy : JValue → Bool
  | .null => false
  | .bool b => b
  | .num n => n != 0
  | .str s => s != ""
  | .arr l => !l.isEmpty
  | .obj l => !l.isEmpty

/-- Python `a or b`. -/
def pyOr (a b : JValue) : JValue :=
  if truthy a then a else b

/-- Require a mapping; any other shape raises `AttributeError` in the source. -/
def asObj : JValue → Option JObj
  | .obj o => some o
  | _ => none

/-- Require a string; any other shape raises in the source. -/
def asStr : JValue → Option String
  | .str s => some s
  | _ => none

/-- Python iteration `for x in v` (mappings iterate keys, strings iterate
characters); scalars raise `TypeError`. -/
def pyIter : JValue → Option (List JValue)
  | .arr l => some l
  | .obj o => some (o.map (fun p => JValue.str p.1))
  | .str s => some (s.data.map (fun c => JValue.str ⟨[c]⟩))
  | _ => none

/-- The hash key of a hashable Python value; `none` for unhashable values
(lists, dicts), whose use in a set raises `TypeError`.  `True == 1` and
`False == 0` in Python, so booleans share keys with integers. -/
inductive HashKey where
  | hnull : HashKey
  | hint (n : Int) : HashKey
  | hstr (s : String) : HashKey
deriving DecidableEq, Repr

def pyHash : JValue → Option HashKey
  | .null => some .hnull
  | .bool b => some (.hint (if b then 1 else 0))
  | .num n => some (.hint n)
  | .str s => some (.hstr s)
  | _ => none

/-- Add to a Python set modelled as a duplicate-free list of hash keys. -/
def pySetAdd (seen : List HashKey) (k : HashKey) : List HashKey :=
  if seen.contains k then seen else seen ++ [k]

mutual

/-- Python `==` between document values (numeric cross-equality between
booleans and integers, order-insensitive mapping equality). -/
def pyEq : JValue → JValue → Bool
  | .null, .null => true
  | .bool a, .bool b => a == b
  | .bool a, .num n => (if a then (1 : Int) else 0) == n
  | .num n, .bool a => n == (if a then (1 : Int) else 0)
  | .num a, .num b => a == b
  | .str a, .str b => a == b
  | .arr a, .arr b => pyEqList a b
  | .obj a, .obj b => a.length == b.length && pyEqObj a b
  | _, _ => false

def pyEqList : List JValue → List JValue → Bool
  | [], [] => true
  | x :: xs, y :: ys => pyEq x y && pyEqList xs ys
  | _, _ => false

def pyEqObj : List (String × JValue) → List (String × JValue) → Bool
  | [], _ => true
  | (k, v) :: rest, b =>
      (match jget b k with
       | some w => pyEq v w
       | none => false) && pyEqObj rest b

end

/-- ASCII lower-casing of one character (Python `str.lower` restricted to
the ASCII range). -/
def pyCharLower : Char → Char
  | 'A' => 'a' | 'B' => 'b' | 'C' => 'c' | 'D' => 'd' | 'E' => 'e'
  | 'F' => 'f' | 'G' => 'g' | 'H' => 'h' | 'I' => 'i' | 'J' => 'j'
  | 'K' => 'k' | 'L' => 'l' | 'M' => 'm' | 'N' => 'n' | 'O' => 'o'
  | 'P' => 'p' | 'Q' => 'q' | 'R' => 'r' | 'S' => 's' | 'T' => 't'
  | 'U' => 'u' | 'V' => 'v' | 'W' => 'w' | 'X' => 'x' | 'Y' => 'y'
  | 'Z' => 'z'
  | c => c

/-- ASCII upper-casing of one character (Python `str.upper` restricted to
the ASCII range). -/
def pyCharUpper : Char → Char
  | 'a' => 'A' | 'b' => 'B' | 'c' => 'C' | 'd' => 'D' | 'e' => 'E'
  | 'f' => 'F' | 'g' => 'G' | 'h' => 'H' | 'i' => 'I' | 'j' => 'J'
  | 'k' => 'K' | 'l' => 'L' | 'm' => 'M' | 'n' => 'N' | 'o' => 'O'
  | 'p' => 'P' | 'q' => 'Q' | 'r' => 'R' | 's' => 'S' | 't' => 'T'
  | 'u' => 'U' | 'v' => 'V' | 'w' => 'W' | 'x' => 'X' | 'y' => 'Y'
  | 'z' => 'Z'
  | c => c

def pyLower (s : String) : String := ⟨s.data.map pyCharLower⟩

def pyUpper (s : String) : String := ⟨s.data.map pyCharUpper⟩

/-- First index at which `pat` occurs in `s` (Python `str.find` helper). -/
def findSubIdx : List Char → List Char → Option Nat
  | s, pat =>
    if pat.isPrefixOf s then some 0
    else
      match s with
      | [] => none
      | _ :: rest => (findSubIdx rest pat).map (· + 1)

/-- Python `s.find(sub)`: index of the first occurrence, `-1` if absent. -/
def pyFind (s sub : String) : Int :=
  match findSubIdx s.data sub.data with
  | some i => (i : Int)
  | none => -1

/-- Python substring test `sub in s`. -/
def pyInStr (sub s : String) : Bool :=
  (findSubIdx s.data sub.data).isSome

/-- Python `s.startswith(p)`. -/
def pyStarts (s p : String) : Bool := p.data.isPrefixOf s.data

/-- Python `s.endswith(p)`. -/
def pyEnds (s p : String) : Bool := p.data.isSuffixOf s.data

/-- Python `s.replace(c, "")` for a single-character needle. -/
def removeChar (s : String) (c : Char) : String := ⟨s.data.filter (· != c)⟩

/-- Python `s.isalnum()` on the ASCII range. -/
def pyIsAlnum (s : String) : Bool :=
  !s.data.isEmpty && s.data.all Char.isAlphanum

/-- Python `s.split("/")`. -/
def splitOnSlash : List Char → List (List Char)
  | [] => [[]]
  | c :: rest =>
    let r := splitOnSlash rest
    if c = '/' then [] :: r
    else
      match r with
      | h :: t => (c :: h) :: t
      | [] => [[c]]

/-- Python `s.split("/")[-1]`. -/
def lastSegment (s : String) : String :=
  ⟨(splitOnSlash s.data).getLastD []⟩

def sq : String := ⟨[Char.ofNat 39]⟩

def lbrace : Char := Char.ofNat 123

def rbrace : Char := Char.ofNat 125

def lbraceStr : String := ⟨[lbrace]⟩

def rbraceStr : String := ⟨[rbrace]⟩

mutual

/-- Python `repr` of a document value (containers). -/
def pyRepr : JValue → String
  | .null => "None"
  | .bool true => "True"
  | .bool false => "False"
  | .num n => toString n
  | .str s => sq ++ s ++ sq
  | .arr l => "[" ++ pyReprList l ++ "]"
  | .obj o => lbraceStr ++ pyReprObj o ++ rbraceStr

def pyReprList : List JValue → String
  | [] => ""
  | [x] => pyRepr x
  | x :: xs => pyRepr x ++ ", " ++ pyReprList xs

def pyReprObj : List (String × JValue) → String
  | [] => ""
  | [(k, v)] => sq ++ k ++ sq ++ ": " ++ pyRepr v
  | (k, v) :: rest => sq ++ k ++ sq ++ ": " ++ pyRepr v ++ ", " ++ pyReprObj rest

end

/-- Python `str(v)` of a document value. -/
def pyStr : JValue → String
  | .str s => s
  | v => pyRepr v

/-- Python `x in container` (`TypeError`, i.e. `none`, on non-containers or
unhashable keys probed against a mapping). -/
def pyInVal (x : JValue) (container : JValue) : Option Bool :=
  match container with
  | .obj o => (pyHash x).map (fun k => o.any (fun p => pyHash (.str p.1) == some k))
  | .arr l => some (l.any (fun e => pyEq x e))
  | .str s => (asStr x).map (fun xs => pyInStr xs s)
  | _ => none

/-! ## Finding messages (the f-strings of the source, verbatim) -/

def msgTitle : String := "Spec is missing an API title."
def msgDescription : String := "Spec should include a description."
def msgVersion : String := "Spec should define an API version."
def msgNoServers : String := "No servers defined. Consider specifying servers for clarity."
def msgServerUrl (u : String) : String :=
  "Server URL " ++ sq ++ u ++ sq ++ " uses variables. Document them properly."
def msgNoGlobalSecurity : String :=
  "No global security requirements defined. Consider adding authentication info."
def msgNoSchemes : String := "No security schemes defined in components."
def msgSchemeType (n : String) : String :=
  "Security scheme " ++ sq ++ n ++ sq ++ " missing type."
def msgSchemeDescription (n : String) : String :=
  "Security scheme " ++ sq ++ n ++ sq ++ " missing description."
def msgSchemeFlows (n : String) : String :=
  "OAuth2 security scheme " ++ sq ++ n ++ sq ++ " missing flows."
def msgSchemeIn (n : String) : String :=
  "API Key security scheme " ++ sq ++ n ++ sq ++ " missing " ++ sq ++ "in" ++ sq ++ " field."
def msgSchemeName (n : String) : String :=
  "API Key security scheme " ++ sq ++ n ++ sq ++ " missing " ++ sq ++ "name" ++ sq ++ " field."
def msgTrailingSlash (p : String) : String :=
  "Path " ++ sq ++ p ++ sq ++ " has trailing slash - consider removing for consistency."
def msgStartSlash (p : String) : String :=
  "Path " ++ sq ++ p ++ sq ++ " should start with " ++ sq ++ "/" ++ sq ++ "."
def msgBadParam (prm p : String) : String :=
  "Path parameter " ++ sq ++ prm ++ sq ++ " in " ++ sq ++ p ++ sq ++
    " should use alphanumeric characters only."

/-- The `f"Operation {method.upper()} {path} ..."` stem. -/
def opStem (method p : String) : String := "Operation " ++ pyUpper method ++ " " ++ p

def msgMissingOpId (method p : String) : String := opStem method p ++ " missing operationId."
def msgDupOpId (opid : JValue) : String :=
  "Duplicate operationId " ++ sq ++ pyStr opid ++ sq ++ " found."
def msgMissingSummary (method p : String) : String := opStem method p ++ " missing summary."
def msgMissingOpDescription (method p : String) : String :=
  opStem method p ++ " missing description."
def msgMissingTags (method p : String) : String :=
  opStem method p ++ " missing tags for grouping."
def msgDeprecated (method p : String) : String :=
  opStem method p ++ " is deprecated - consider adding migration info."
def msgGetBody (p : String) : String := "GET operation " ++ p ++ " should not have requestBody."
def msgNeedsBody (method p : String) : String :=
  pyUpper method ++ " operation " ++ p ++ " should have requestBody."
def msgDeleteBody (p : String) : String :=
  "DELETE operation " ++ p ++ " typically should not have requestBody."
def msgIdempotent (method p : String) : String :=
  pyUpper method ++ " operation " ++ p ++ " should document idempotent behavior."
def msgParamNameIn (method p : String) : String :=
  "Parameter in " ++ pyUpper method ++ " " ++ p ++ " missing name or in."
def msgDupParam (name loc : JValue) (method p : String) : String :=
  "Duplicate parameter " ++ pyStr name ++ " in " ++ pyStr loc ++ " for " ++
    pyUpper method ++ " " ++ p ++ "."
def msgParamDescription (name loc : JValue) (method p : String) : String :=
  "Parameter " ++ pyStr name ++ " in " ++ pyStr loc ++ " of " ++ pyUpper method ++ " " ++ p ++
    " missing description."
def msgRbNoContent (method p : String) : String :=
  pyUpper method ++ " " ++ p ++ " requestBody has no content defined."
def msgRbNoJson (method p : String) : String :=
  pyUpper method ++ " " ++ p ++ " requestBody should include application/json content type."
def msgRbNoExamples (method p ct : String) : String :=
  pyUpper method ++ " " ++ p ++ " requestBody content " ++ ct ++ " missing examples."
def msgNoResponses (method p : String) : String := opStem method p ++ " has no responses defined."
def msgNoSuccess (method p : String) : String :=
  opStem method p ++ " missing 200/201 success response."
def msgNo4xx (method p : String) : String := opStem method p ++ " missing 4xx error responses."
def msgNo5xx (method p : String) : String := opStem method p ++ " missing 5xx error responses."
def msgRespNoDescription (code method p : String) : String :=
  "Response " ++ code ++ " of " ++ pyUpper method ++ " " ++ p ++ " missing description."
def msgRespNoJson (code method p : String) : String :=
  "Response " ++ code ++ " of " ++ pyUpper method ++ " " ++ p ++
    " should include application/json content type."
def msgRespNoSchema (code method p ct : String) : String :=
  "Response " ++ code ++ " of " ++ pyUpper method ++ " " ++ p ++ " with content " ++ ct ++
    " missing schema."
def msgRespNoExamples (code method p ct : String) : String :=
  "Response " ++ code ++ " of " ++ pyUpper method ++ " " ++ p ++ " content " ++ ct ++
    " missing examples."
def msgMissingSecurity (method p : String) : String :=
  opStem method p ++ " missing security definition."
def msgSchemaType (n : String) : String := "Schema " ++ n ++ " missing type or composition keyword."
def msgSchemaDescription (n : String) : String := "Schema " ++ n ++ " missing description."
def msgSchemaRequired (n : String) (rf : JValue) : String :=
  "Schema " ++ n ++ " has required field " ++ sq ++ pyStr rf ++ sq ++
    " not defined in properties."
def msgPropDescription (n prop : String) : String :=
  "Schema " ++ n ++ " property " ++ sq ++ prop ++ sq ++ " missing description."
def msgPropType (n prop : String) : String :=
  "Schema " ++ n ++ " property " ++ sq ++ prop ++ sq ++ " missing type or $ref."
def msgPropNullable (n prop : String) : String :=
  "Schema " ++ n ++ " property " ++ sq ++ prop ++ sq ++
    " should use nullable: true instead of type: null."
def msgSchemaExamples (n : String) : String := "Schema " ++ n ++ " missing example or examples."
def msgPagination (method p : String) : String :=
  "List operation " ++ pyUpper method ++ " " ++ p ++ " should support pagination parameters."
def msgRateLimit (method p : String) : String :=
  opStem method p ++ " should document rate limiting headers."
def msgCaching (p : String) : String := "GET operation " ++ p ++ " should document caching headers."

/-! ## The validator boundary and the analysis phases -/

/-- Environment of the external structural validator (lines 192-201):
`none` models an unavailable `openapi_spec_validator` import; `some f`
models a present validator whose verdict on a document is `f doc`
(`none` = document accepted, `some e` = exception message `e`). -/
def ValidatorEnv := Option (JObj → Option String)

/-- `_validate_with_openapi_spec_validator` (lines 192-201). -/
def validatorSuggs (env : ValidatorEnv) (spec : JObj) : List String :=
  match env with
  | none => ["Could not import openapi-spec-validator, skipping validation."]
  | some f =>
    match f spec with
    | none => []
    | some e => ["Spec validation: " ++ e]

/-- Lines 263-269: `info` metadata checks. -/
def infoChecks (spec : JObj) : Option (List String) := do
  let info ← asObj (pyGet spec "info" (.obj []))
  some ((if !truthy (pyGetN info "title") then [msgTitle] else []) ++
        (if !truthy (pyGetN info "description") then [msgDescription] else []) ++
        (if !truthy (pyGetN info "version") then [msgVersion] else []))

/-- Lines 280-284: one declared server entry. -/
def serverItemCheck (server : JValue) : Option (List String) :=
  match server with
  | .obj s =>
    let urlVal := pyGetN s "url"
    if truthy urlVal then
      (pyInVal (.str lbraceStr) urlVal).map
        (fun b => if b then [msgServerUrl (pyStr urlVal)] else [])
    else some []
  | _ => some []

/-- Lines 276-284: the `servers` checks. -/
def serverChecks (spec : JObj) : Option (List String) :=
  let servers := pyGet spec "servers" (.arr [])
  if !truthy servers then some [msgNoServers]
  else do
    let items ← pyIter servers
    let ls ← items.mapM serverItemCheck
    some ls.flatten

/-- Lines 286-288: global `security` check. -/
def globalSecurityCheck (spec : JObj) : List String :=
  if !truthy (pyGet spec "security" (.arr [])) then [msgNoGlobalSecurity] else []

/-- Lines 295-311: one declared security scheme. -/
def schemeChecks (name : String) (sdef : JValue) : List String :=
  match sdef with
  | .obj d =>
    (if !hasKey d "type" then [msgSchemeType name] else []) ++
    (if !hasKey d "description" then [msgSchemeDescription name] else []) ++
    (if pyEq (pyGetN d "type") (.str "oauth2") then
       (if !hasKey d "flows" then [msgSchemeFlows name] else [])
     else if pyEq (pyGetN d "type") (.str "apiKey") then
       (if !hasKey d "in" then [msgSchemeIn name] else []) ++
       (if !hasKey d "name" then [msgSchemeName name] else [])
     else [])
  | _ => []

/-- Lines 290-311: `components.securitySchemes` checks; `components.get`
raises when `components` is not a mapping. -/
def securitySchemesChecks (componentsV : JValue) : Option (List String) := do
  let comps ← asObj componentsV
  match pyGet comps "securitySchemes" (.obj []) with
  | .obj sso =>
    some (if sso.isEmpty then [msgNoSchemes]
          else sso.flatMap (fun p => schemeChecks p.1 p.2))
  | _ => some []

/-- Lines 320-325: `re.findall` of the `{name}` pattern over a path,
non-overlapping leftmost matches with a non-empty group. -/
def braceParams : List Char → Option (List Char) → List String
  | [], _ => []
  | c :: rest, none =>
    if c = lbrace then braceParams rest (some []) else braceParams rest none
  | c :: rest, some buf =>
    if c = rbrace then
      if buf.isEmpty then braceParams rest none
      else (⟨buf⟩ : String) :: braceParams rest none
    else braceParams rest (some (buf ++ [c]))

def pathParamNames (p : String) : List String := braceParams p.data none

/-- Lines 314-325: path-convention checks for one path key. -/
def pathConventionChecks (p : String) : List String :=
  (if p != "/" && pyEnds p "/" then [msgTrailingSlash p] else []) ++
  (if pyInStr "/" p && !pyStarts p "/" then [msgStartSlash p] else []) ++
  (if pyInStr lbraceStr p && pyInStr rbraceStr p then
     (pathParamNames p).flatMap
       (fun prm =>
         if !pyIsAlnum (removeChar (removeChar prm '_') '-') then [msgBadParam prm p] else [])
   else [])

/-- Lines 313-325: path-convention checks over all path keys (keys are
strings in this model, so the `isinstance(path, str)` guard always holds). -/
def pathsKeyChecks (paths : JObj) : List String :=
  paths.flatMap (fun pm => pathConventionChecks pm.1)

def httpMethods : List String :=
  ["get", "post", "put", "delete", "patch", "options", "head", "trace"]

/-- Lines 327-332: the initial `operations_count` comprehension (counts every
known-method key of every mapping-valued path item, regardless of the
shape of the method value). -/
def opsCountInitial (paths : JObj) : Nat :=
  (paths.map (fun pm =>
    match pm.2 with
    | .obj methods => (methods.filter (fun m => httpMethods.contains (pyLower m.1))).length
    | _ => 0)).sum

/-- Lines 346-352: `operationId` presence and cross-document uniqueness
(`seen_operation_ids` is a single set threaded across all operations). -/
def opIdCheck (method p : String) (details : JObj) (seen : List HashKey) :
    Option (List String × List HashKey) :=
  let opid := pyGetN details "operationId"
  if !truthy opid then some ([msgMissingOpId method p], seen)
  else
    (pyHash opid).map (fun k =>
      ((if seen.contains k then [msgDupOpId opid] else []), pySetAdd seen k))

/-- Lines 354-363: summary / description / tags / deprecated checks. -/
def opDocChecks (method p : String) (details : JObj) : List String :=
  (if !truthy (pyGetN details "summary") then [msgMissingSummary method p] else []) ++
  (if !truthy (pyGetN details "description") then [msgMissingOpDescription method p] else []) ++
  (if !truthy (pyGetN details "tags") then [msgMissingTags method p] else []) ++
  (match pyGetN details "deprecated" with
   | .bool true => [msgDeprecated method p]
   | _ => [])

/-- Lines 365-371: method/requestBody consistency (an `elif` chain). -/
def opBodyChecks (method p : String) (details : JObj) : List String :=
  if pyLower method = "get" && hasKey details "requestBody" then [msgGetBody p]
  else if ["post", "put", "patch"].contains (pyLower method) &&
          !hasKey details "requestBody" then [msgNeedsBody method p]
  else if pyLower method = "delete" && hasKey details "requestBody" then [msgDeleteBody p]
  else []

/-- Lines 373-374: the idempotency heuristic, translated with Python
precedence: `not (description.lower().find("idempotent") == -1)`, i.e. the
finding fires when the lower-cased description CONTAINS "idempotent".
`.lower()` raises when the description value is not a string. -/
def opIdemCheck (method p : String) (details : JObj) : Option (List String) :=
  if ["put", "delete"].contains (pyLower method) then do
    let d ← asStr (pyGet details "description" (.str ""))
    some (if !(pyFind (pyLower d) "idempotent" == -1) then [msgIdempotent method p] else [])
  else some []

/-- Lines 379-397: one parameter entry of a parameter list; `seen` is the
per-operation set of `(name, in)` hash-key pairs. -/
def paramEntryCheck (method p : String) (prm : JValue)
    (seen : List (HashKey × HashKey)) :
    Option (List String × List (HashKey × HashKey)) :=
  match prm with
  | .obj pd =>
    let name := pyGetN pd "name"
    let loc := pyGetN pd "in"
    let descPart :=
      if !hasKey pd "description" then [msgParamDescription name loc method p] else []
    if !truthy name || !truthy loc then
      some ([msgParamNameIn method p] ++ descPart, seen)
    else do
      let kn ← pyHash name
      let kl ← pyHash loc
      if seen.contains (kn, kl) then
        some ([msgDupParam name loc method p] ++ descPart, seen)
      else
        some (descPart, seen ++ [(kn, kl)])
  | _ => some ([], seen)

def paramListCheck (method p : String) :
    List JValue → List (HashKey × HashKey) → Option (List String)
  | [], _ => some []
  | prm :: rest, seen => do
    let (fs, seen') ← paramEntryCheck method p prm seen
    let r ← paramListCheck method p rest seen'
    some (fs ++ r)

/-- Lines 376-397: the parameters checks (skipped unless `parameters` is a
list). -/
def opParamChecks (method p : String) (details : JObj) : Option (List String) :=
  match pyGet details "parameters" (.arr []) with
  | .arr params => paramListCheck method p params []
  | _ => some []

/-- Lines 399-410: requestBody content checks.  A truthy non-mapping
`content` raises (`in` may succeed on strings/lists, but `content.items()`
then raises), hence `asObj`. -/
def opRequestBodyChecks (method p : String) (details : JObj) : Option (List String) :=
  if hasKey details "requestBody" then
    match pyGet details "requestBody" (.obj []) with
    | .obj rb =>
      let content := pyGet rb "content" (.obj [])
      if !truthy content then some [msgRbNoContent method p]
      else do
        let c ← asObj content
        let appJson :=
          if !(c.any (fun q => q.1 = "application/json")) then [msgRbNoJson method p] else []
        let perType := c.flatMap (fun q =>
          match q.2 with
          | .obj cs =>
            if !truthy (pyGetN cs "examples") && !truthy (pyGetN cs "example") then
              [msgRbNoExamples method p q.1]
            else []
          | _ => [])
        some (appJson ++ perType)
    | _ => some []
  else some []

/-- Lines 440-447: the per-content-type checks of one response; `cval.get`
raises when the content value is not a mapping. -/
def respContentEntry (code method p : String) (ct : String) (cv : JValue) :
    Option (List String) := do
  let cvo ← asObj cv
  let sMsg :=
    if !truthy (pyGetN cvo "schema") then [msgRespNoSchema code method p ct] else []
  let exMsg :=
    if !truthy (pyGetN cvo "examples") && !truthy (pyGetN cvo "example") then
      [msgRespNoExamples code method p ct]
    else []
  some (sMsg ++ exMsg)

/-- Lines 435-447: the content checks of one response entry; skipped unless
`content` is a mapping. -/
def respContentChecks (code method p : String) (rdo : JObj) : Option (List String) :=
  match pyGet rdo "content" (.obj []) with
  | .obj c => do
    let aj :=
      if !(c.any (fun q => q.1 = "application/json")) && !c.isEmpty then
        [msgRespNoJson code method p]
      else []
    let per ← c.mapM (fun q => respContentEntry code method p q.1 q.2)
    some (aj ++ per.flatten)
  | _ => some []

/-- Lines 428-447: the per-entry responses loop. -/
def respEntriesChecks (method p : String) : List (String × JValue) → Option (List String)
  | [] => some []
  | (code, rd) :: rest =>
    match rd with
    | .obj rdo => do
      let descM :=
        if !hasKey rdo "description" then [msgRespNoDescription code method p] else []
      let cMsgs ← respContentChecks code method p rdo
      let r ← respEntriesChecks method p rest
      some (descM ++ cMsgs ++ r)
    | _ => respEntriesChecks method p rest

/-- Lines 412-447: the responses checks.  A truthy non-mapping `responses`
raises at `responses.keys()`. -/
def opResponseChecks (method p : String) (details : JObj) : Option (List String) :=
  let responses := pyGet details "responses" (.obj [])
  if !truthy responses then some [msgNoResponses method p]
  else do
    let r ← asObj responses
    let success :=
      if !(r.any (fun q => q.1 = "200")) && !(r.any (fun q => q.1 = "201")) then
        [msgNoSuccess method p]
      else []
    let e4 := if !(r.any (fun q => pyStarts q.1 "4")) then [msgNo4xx method p] else []
    let e5 := if !(r.any (fun q => pyStarts q.1 "5")) then [msgNo5xx method p] else []
    let per ← respEntriesChecks method p r
    some (success ++ e4 ++ e5 ++ per)

/-- Lines 449-450: per-operation security check. -/
def opSecurityCheck (method p : String) (details : JObj) : List String :=
  if !hasKey details "security" then [msgMissingSecurity method p] else []

/-- Lines 346-450: all checks of one qualifying operation, in source order. -/
def opChecks (p method : String) (details : JObj) (seen : List HashKey) :
    Option (List String × List HashKey) := do
  let (idFs, seen') ← opIdCheck method p details seen
  let docFs := opDocChecks method p details
  let bodyFs := opBodyChecks method p details
  let idemFs ← opIdemCheck method p details
  let paramFs ← opParamChecks method p details
  let rbFs ← opRequestBodyChecks method p details
  let respFs ← opResponseChecks method p details
  let secFs := opSecurityCheck method p details
  some (idFs ++ docFs ++ bodyFs ++ idemFs ++ paramFs ++ rbFs ++ respFs ++ secFs, seen')

/-- State of the operations loop: running count, the cross-document
`seen_operation_ids` set, and accumulated findings. -/
structure OpsState where
  count : Nat
  seen : List HashKey
  suggs : List String
deriving Repr, DecidableEq

/-- Lines 337-450: the inner loop over one path item. -/
def processMethods (p : String) : List (String × JValue) → OpsState → Option OpsState
  | [], st => some st
  | (method, dv) :: rest, st =>
    if httpMethods.contains (pyLower method) then
      match dv with
      | .obj details => do
        let (fs, seen') ← opChecks p method details st.seen
        processMethods p rest ⟨st.count + 1, seen', st.suggs ++ fs⟩
      | _ => processMethods p rest st
    else processMethods p rest st

/-- Lines 333-450: the outer loop over `paths.items()`. -/
def processPaths : List (String × JValue) → OpsState → Option OpsState
  | [], st => some st
  | (p, mv) :: rest, st =>
    match mv with
    | .obj ms => do
      let st' ← processMethods p ms st
      processPaths rest st'
    | _ => processPaths rest st

/-- Lines 460-463: the `required`-members check of one schema (skipped
unless `required` is present and a list). -/
def requiredChecks (sname : String) (d : JObj) : Option (List String) :=
  match jget d "required" with
  | some (.arr reqs) => do
    let ls ← reqs.mapM (fun rf => do
      let b ← pyInVal rf (pyGet d "properties" (.obj []))
      some (if !b then [msgSchemaRequired sname rf] else []))
    some ls.flatten
  | _ => some []

/-- Lines 452-478: checks of one named schema. -/
def schemaEntryChecks (sname : String) (sdef : JValue) : Option (List String) :=
  match sdef with
  | .obj d => do
    let tMsg :=
      if !hasKey d "type" && !hasKey d "allOf" && !hasKey d "oneOf" && !hasKey d "anyOf" then
        [msgSchemaType sname]
      else []
    let dMsg := if !hasKey d "description" then [msgSchemaDescription sname] else []
    let reqMsgs ← requiredChecks sname d
    let propMsgs :=
      match pyGet d "properties" (.obj []) with
      | .obj props => props.flatMap (fun q =>
          match q.2 with
          | .obj pd =>
            (if !hasKey pd "description" then [msgPropDescription sname q.1] else []) ++
            (if !hasKey pd "type" && !hasKey pd "$ref" then [msgPropType sname q.1] else []) ++
            (match pyGetN pd "nullable", pyGetN pd "type" with
             | .bool true, t => if pyEq t (.str "null") then [msgPropNullable sname q.1] else []
             | _, _ => [])
          | _ => [])
      | _ => []
    let exMsg := if !hasKey d "example" && !hasKey d "examples" then [msgSchemaExamples sname]
                 else []
    some (tMsg ++ dMsg ++ reqMsgs ++ propMsgs ++ exMsg)
  | _ => some []

/-- Lines 452-478: the `components.schemas` loop; `schemas.items()` raises
whenever `schemas` is not a mapping. -/
def schemaChecks (schemasV : JValue) : Option (List String) := do
  let schemas ← asObj schemasV
  let ls ← schemas.mapM (fun q => schemaEntryChecks q.1 q.2)
  some ls.flatten

/-- Lines 489-493: scan a parameter list for a pagination-parameter name;
models the `break` (entries after a hit are not inspected) and the raise on
a non-string `name` of a mapping entry. -/
def findPagination : List JValue → Option Bool
  | [] => some false
  | prm :: rest =>
    match prm with
    | .obj po => do
      let n ← asStr (pyGet po "name" (.str ""))
      if ["page", "limit", "offset", "size"].contains (pyLower n) then some true
      else findPagination rest
    | _ => findPagination rest

/-- Header-name scan of one response mapping (lines 499-506 / 510-518). -/
def headersHave (pred : String → Bool) (r : List (String × JValue)) : Bool :=
  r.any (fun q =>
    match q.2 with
    | .obj rdo =>
      match pyGet rdo "headers" (.obj []) with
      | .obj hs => hs.any (fun h => pred h.1)
      | _ => false
    | _ => false)

/-- Lines 487-495: the pagination heuristic of the second loop. -/
def paginationCheck (p method : String) (details : JObj) : Option (List String) :=
  if pyLower method = "get" &&
      (pyInStr "list" (pyLower p) || pyInStr "s" (lastSegment p)) then do
    let items ← pyIter (pyGet details "parameters" (.arr []))
    let hasPag ← findPagination items
    some (if !hasPag then [msgPagination method p] else [])
  else some []

/-- Lines 483-520: pagination / rate-limit / caching heuristics for one
(method, details) entry (note: no HTTP-method filter in this loop). -/
def extraOpChecks (p method : String) (details : JObj) : Option (List String) := do
  let pag ← paginationCheck p method details
  let r ← asObj (pyGet details "responses" (.obj []))
  let hasRate := headersHave (fun h => pyInStr "rate" (pyLower h) || pyInStr "limit" (pyLower h)) r
  let rate := if !hasRate then [msgRateLimit method p] else []
  let hasCache := headersHave (fun h => pyInStr "cache" (pyLower h) || pyInStr "etag" (pyLower h)) r
  let cache := if !hasCache && pyLower method = "get" then [msgCaching p] else []
  some (pag ++ rate ++ cache)

def extraMethodsLoop (p : String) : List (String × JValue) → Option (List String)
  | [] => some []
  | (method, dv) :: rest =>
    match dv with
    | .obj details => do
      let fs ← extraOpChecks p method details
      let r ← extraMethodsLoop p rest
      some (fs ++ r)
    | _ => extraMethodsLoop p rest

/-- Lines 480-520: the second loop over `paths.items()`. -/
def extraChecksPhase : List (String × JValue) → Option (List String)
  | [] => some []
  | (p, mv) :: rest =>
    match mv with
    | .obj ms => do
      let fs ← extraMethodsLoop p ms
      let r ← extraChecksPhase rest
      some (fs ++ r)
    | _ => extraChecksPhase rest

/-! ## The assembled engine -/

structure Summary where
  openapi_version : Option String
  paths_count : Nat
  operations_count : Nat
  schemas_count : Nat
deriving Repr, DecidableEq, Inhabited

structure AnalysisResult where
  status : String
  is_valid : Bool
  summary : Summary
  suggestions : List String
deriving Repr, DecidableEq, Inhabited

/-- The `paths` mapping an input document yields at line 272
(`spec.get("paths") or {}`), as a mapping when it is one. -/
def specPathsObj (spec : JObj) : JObj :=
  match pyOr (pyGetN spec "paths") (.obj []) with
  | .obj l => l
  | _ => []

/-- Lines 257-532 of `analyze_openapi_spec`, with the input document
threaded through evaluation and returned alongside the result: the source
contains no statement that stores into the document, so every phase reads
`spec` and the final state is the untouched input. -/
def analyzeSpecST (env : ValidatorEnv) (spec : JObj) :
    Option (AnalysisResult × JObj) := do
  let s0 := validatorSuggs env spec
  let s1 ← infoChecks spec
  let openapiVersion := pyOr (pyGetN spec "openapi") (pyGetN spec "swagger")
  let pathsV := pyOr (pyGetN spec "paths") (.obj [])
  let componentsV := pyGet spec "components" (.obj [])
  let schemasV :=
    match componentsV with
    | .obj c => pyGet c "schemas" (.obj [])
    | _ => .obj []
  let s2 ← serverChecks spec
  let s3 := globalSecurityCheck spec
  let s4 ← securitySchemesChecks componentsV
  let pathsD ← asObj pathsV
  let s5 := pathsKeyChecks pathsD
  let st ← processPaths pathsD ⟨opsCountInitial pathsD, [], []⟩
  let s7 ← schemaChecks schemasV
  let s8 ← extraChecksPhase pathsD
  let summary : Summary :=
    { openapi_version := if truthy openapiVersion then some (pyStr openapiVersion) else none
      paths_count := pathsD.length
      operations_count := st.count
      schemas_count := match schemasV with | .obj l => l.length | _ => 0 }
  some ({ status := "success", is_valid := true, summary := summary
          suggestions := s0 ++ s1 ++ s2 ++ s3 ++ s4 ++ s5 ++ st.suggs ++ s7 ++ s8 },
        spec)

/-- `analyze_openapi_spec` (lines 257-532): `none` models an uncaught
runtime error. -/
def analyze_openapi_spec (env : ValidatorEnv) (spec : JObj) : Option AnalysisResult :=
  (analyzeSpecST env spec).map (·.1)

/-- The rule-evaluation portion of `analyze_openapi_url` (lines 549-820),
which runs after a successful fetch and parse; `parseSuggs` are the notes
accumulated by `_load_openapi_from_bytes` before the rules run.  Lines
549-820 repeat lines 261-532 character for character, so the phases are
the shared definitions above, composed in the same order. -/
def analyze_openapi_url_rules (env : ValidatorEnv) (parseSuggs : List String)
    (spec : JObj) : Option AnalysisResult :=
  (analyzeSpecST env spec).map
    (fun r => { r.1 with suggestions := parseSuggs ++ r.1.suggestions })

/-! ## Specification-side definitions (phrased from the specification text,
for comparison with the translated engine) -/

/-- The number of (path, method) pairs whose method key is one of the known
HTTP methods (case-insensitively) and whose value is a mapping: the count
the specification says `operations_count` reports. -/
def qualifyingOpsCount (paths : JObj) : Nat :=
  (paths.flatMap (fun pm =>
    match pm.2 with
    | .obj ms =>
      ms.filter (fun m =>
        httpMethods.contains (pyLower m.1) &&
        (match m.2 with | .obj _ => true | _ => false))
    | _ => [])).length

/-- Recognizes a duplicate-operationId finding by its fixed leading text. -/
def isDupMsg (s : String) : Bool :=
  ("Duplicate operationId " ++ sq).data.isPrefixOf s.data

/-- Python `==`-equality of two hashable values via their hash keys. -/
def keyEq (v w : JValue) : Bool :=
  match pyHash v, pyHash w with
  | some a, some b => a == b
  | _, _ => false

/-- The truthy `operationId` values of the qualifying operations of one path
item, in evaluation order. -/
def truthyOpidsOfMethods : List (String × JValue) → List JValue
  | [] => []
  | (m, d) :: rest =>
    (if httpMethods.contains (pyLower m) then
       match d with
       | .obj dd =>
         if truthy (pyGetN dd "operationId") then [pyGetN dd "operationId"] else []
       | _ => []
     else []) ++ truthyOpidsOfMethods rest

/-- The truthy `operationId` values of all qualifying operations of the
document, in evaluation order. -/
def truthyOpids : List (String × JValue) → List JValue
  | [] => []
  | (_, mv) :: rest =>
    (match mv with
     | .obj ms => truthyOpidsOfMethods ms
     | _ => []) ++ truthyOpids rest

/-- One duplicate finding for every occurrence that has an equal earlier
occurrence (`prior` holds the values already seen before this run). -/
def laterDuplicatesAux : List JValue → List JValue → List String
  | _, [] => []
  | prior, v :: rest =>
    (if prior.any (fun w => keyEq w v) then [msgDupOpId v] else []) ++
    laterDuplicatesAux (prior ++ [v]) rest

/-- The duplicate findings the specification demands: none for a first
occurrence, exactly one for each later occurrence of an equal value. -/
def laterDuplicates (ops : List JValue) : List String := laterDuplicatesAux [] ops

/-- The seen-set of the engine holds exactly the hash keys of the values
processed so far. -/
def SeenInv (seen : List HashKey) (prior : List JValue) : Prop :=
  ∀ k : HashKey, seen.contains k = prior.any (fun w => pyHash w == some k)

/-! ## Concrete documents used as evidence -/

/-- A validator environment in which the external validator is importable
and accepts every document. -/
def envOk : ValidatorEnv := some (fun _ => none)

/-- One path with one GET operation whose value is a mapping. -/
def docOneGet : JObj := [("paths", .obj [("/a", .obj [("get", .obj [])])])]

/-- The end-to-end scenario document of the specification. -/
def docScenario : JObj :=
  [("openapi", .str "3.0.0"),
   ("info", .obj [("title", .str "T")]),
   ("paths", .obj [("/items", .obj [("get", .obj
      [("operationId", .str "listItems"),
       ("responses", .obj [("200", .obj [("description", .str "ok")])])])])])]

/-- A paths mapping with a key that contains no slash at all. -/
def docNoSlash : JObj := [("paths", .obj [("abc", .obj [])])]

/-- Two operations that both carry the falsy operationId `""`. -/
def docEmptyIds : JObj :=
  [("paths", .obj
    [("/a", .obj [("get", .obj [("operationId", .str "")])]),
     ("/b", .obj [("get", .obj [("operationId", .str "")])])])]

/-- Two operations with the same truthy operationId across two paths. -/
def docDupIds : JObj :=
  [("paths", .obj
    [("/a", .obj [("get", .obj [("operationId", .str "x")])]),
     ("/b", .obj [("get", .obj [("operationId", .str "x")])])])]

/-! ## Basic lemmas about the string and list helpers -/

theorem isPrefixOfChar (l₁ l₂ : List Char) : l₁.isPrefixOf l₂ = true ↔ l₁ <+: l₂ :=
  List.isPrefixOf_iff_prefix

theorem singleton_prefix_head (c : Char) (l : List Char) :
    [c] <+: l ↔ l.head? = some c := by
  cases l with
  | nil => simp
  | cons a t => simp [List.cons_prefix_cons, eq_comm]

theorem singleton_suffix_getLast (c : Char) (l : List Char) :
    [c] <:+ l ↔ l.getLast? = some c := by
  rw [← List.reverse_prefix, List.reverse_singleton, singleton_prefix_head, List.head?_reverse]

theorem infix_singleton_mem (c : Char) (l : List Char) :
    [c] <:+: l ↔ c ∈ l := by
  induction l with
  | nil => simp [List.infix_nil]
  | cons a t ih =>
    rw [List.infix_cons_iff, singleton_prefix_head]
    simp [ih, eq_comm]

theorem findSubIdx_isSome_iff (pat : List Char) :
    ∀ s : List Char, (findSubIdx s pat).isSome = true ↔ pat <:+: s := by
  intro s
  induction s with
  | nil =>
    rw [findSubIdx]
    by_cases h : pat.isPrefixOf [] = true
    · simp [h, (isPrefixOfChar pat []).mp h |>.isInfix]
    · simp [h, List.infix_nil]
      intro he
      exact h ((isPrefixOfChar pat []).mpr (he ▸ List.nil_prefix))
  | cons a t ih =>
    rw [findSubIdx]
    by_cases h : pat.isPrefixOf (a :: t) = true
    · simp [h, ((isPrefixOfChar pat (a :: t)).mp h).isInfix]
    · simp only [h, if_false]
      rw [List.infix_cons_iff]
      have h' : ¬ pat <+: a :: t := fun hp => h ((isPrefixOfChar pat (a :: t)).mpr hp)
      simp [Option.isSome_map, ih, h']

theorem pyInStr_singleton (c : Char) (s : String) :
    pyInStr ⟨[c]⟩ s = decide (c ∈ s.data) := by
  have h := findSubIdx_isSome_iff [c] s.data
  rw [infix_singleton_mem] at h
  unfold pyInStr
  by_cases hc : c ∈ s.data
  · simp [hc, h.mpr hc]
  · rw [decide_eq_false hc]
    exact Bool.eq_false_iff.mpr (fun hs => hc (h.mp hs))

theorem pyStarts_head (c : Char) (s : String) :
    pyStarts s ⟨[c]⟩ = decide (s.data.head? = some c) := by
  unfold pyStarts
  by_cases h : s.data.head? = some c
  · simp [h, (isPrefixOfChar [c] s.data).mpr ((singleton_prefix_head c s.data).mpr h)]
  · rw [decide_eq_false h]
    exact Bool.eq_false_iff.mpr
      (fun hs => h ((singleton_prefix_head c s.data).mp ((isPrefixOfChar [c] s.data).mp hs)))

theorem pyEnds_getLast (c : Char) (s : String) :
    pyEnds s ⟨[c]⟩ = decide (s.data.getLast? = some c) := by
  unfold pyEnds
  by_cases h : s.data.getLast? = some c
  · simp [List.isSuffixOf_iff_suffix, h, (singleton_suffix_getLast c s.data).mpr h]
  · rw [decide_eq_false h]
    refine Bool.eq_false_iff.mpr (fun hs => ?_)
    rw [List.isSuffixOf_iff_suffix] at hs
    exact h ((singleton_suffix_getLast c s.data).mp hs)

theorem charUpper_charLower (c : Char) : pyCharUpper (pyCharLower c) = pyCharUpper c := by
  unfold pyCharLower
  split <;> rfl

theorem map_upper_of_map_lower (l L : List Char)
    (h : l.map pyCharLower = L) : l.map pyCharUpper = L.map pyCharUpper := by
  subst h
  rw [List.map_map]
  exact List.map_congr_left (fun c _ => (charUpper_charLower c).symm)

theorem pyUpper_of_pyLower (m lo : String) (h : pyLower m = lo) :
    pyUpper m = pyUpper lo := by
  unfold pyLower at h
  unfold pyUpper
  have hd : m.data.map pyCharLower = lo.data := congrArg String.data h
  exact congrArg String.mk (map_upper_of_map_lower m.data lo.data hd)

theorem pyFind_eq_neg_one_iff (s sub : String) :
    (pyFind s sub == -1) = !(findSubIdx s.data sub.data).isSome := by
  unfold pyFind
  cases h : findSubIdx s.data sub.data with
  | none => simp
  | some i =>
    simp only [Option.isSome_some, Bool.not_true, beq_eq_false_iff_ne, ne_eq]
    omega

/-! ## Claim theorems -/

/-- C9: the engine never mutates the input document: whenever evaluation
succeeds, the document threaded through `analyzeSpecST` comes back equal to
the input document. -/
theorem analyze_preserves_document (env : ValidatorEnv) (spec : JObj)
    (r : AnalysisResult) (d : JObj)
    (h : analyzeSpecST env spec = some (r, d)) : d = spec := by
  unfold analyzeSpecST at h
  simp only [bind, Option.bind_eq_some, Option.some.injEq, Prod.mk.injEq] at h
  obtain ⟨s1, -, h⟩ := h
  obtain ⟨s2, -, h⟩ := h
  obtain ⟨s4, -, h⟩ := h
  obtain ⟨pathsD, -, h⟩ := h
  obtain ⟨st, -, h⟩ := h
  obtain ⟨s7, -, h⟩ := h
  obtain ⟨s8, -, h⟩ := h
  exact h.2.symm

theorem analyze_preserves_document_witness :
    (analyzeSpecST envOk docOneGet).map Prod.snd = some docOneGet := by
  cases h : analyzeSpecST envOk docOneGet with
  | none =>
    have hn : analyze_openapi_spec envOk docOneGet = none := by
      unfold analyze_openapi_spec
      rw [h]
      rfl
    exact absurd hn (by decide)
  | some pr =>
    have hd := analyze_preserves_document envOk docOneGet pr.1 pr.2 (by rw [h])
    simp [hd]

/-- C8: evaluation is deterministic: two evaluations of the same document
yield the same ordered finding sequence, the same summary, and in fact the
same result. -/
theorem analyze_spec_deterministic (env : ValidatorEnv) (spec : JObj)
    (r₁ r₂ : AnalysisResult)
    (h₁ : analyze_openapi_spec env spec = some r₁)
    (h₂ : analyze_openapi_spec env spec = some r₂) :
    r₁.suggestions = r₂.suggestions ∧ r₁.summary = r₂.summary ∧ r₁ = r₂ := by
  rw [h₁] at h₂
  injection h₂ with h
  subst h
  exact ⟨rfl, rfl, rfl⟩

theorem analyze_spec_deterministic_witness :
    (analyze_openapi_spec envOk docScenario).isSome = true ∧
    ((analyze_openapi_spec envOk docScenario).getD default).suggestions =
      ((analyze_openapi_spec envOk docScenario).getD default).suggestions := by
  refine ⟨by decide, ?_⟩
  cases h : analyze_openapi_spec envOk docScenario with
  | none => exact absurd h (by decide)
  | some r => exact (analyze_spec_deterministic envOk docScenario r r h h).1

/-- C1: the summary field `operations_count` does NOT equal the number of
(path, method) pairs with a known method and a mapping value: on a document
with exactly one such pair the code reports 2, because the comprehension at
lines 327-332 already counts every method key and the loop at line 344 then
increments the same counter again for every qualifying operation. -/
theorem operations_count_double_counted :
    qualifyingOpsCount (specPathsObj docOneGet) = 1 ∧
    (analyze_openapi_spec envOk docOneGet).map (fun r => r.summary.operations_count) =
      some 2 := by
  exact ⟨by decide, by decide⟩

/-- C2: a document whose top-level `paths` value is a (non-empty) string
makes evaluation raise `AttributeError` at `paths.keys()` (line 313): the
model returns `none` instead of the result with `paths_count = 0` that the
claim demands. -/
theorem paths_string_input_crashes :
    analyze_openapi_spec envOk [("paths", JValue.str "not-a-mapping")] = none := by
  decide

/-- C3 (counterexample to strictness): the rule evaluation of
`analyze_openapi_url` is EXACTLY the rule evaluation of
`analyze_openapi_spec` with the parse notes prepended - lines 549-820
repeat lines 261-532 verbatim - so neither variant is a strict superset of
the other. -/
theorem url_rules_equal_spec_rules :
    analyze_openapi_url_rules =
      fun env ps spec => (analyze_openapi_spec env spec).map
        (fun r => { r with suggestions := ps ++ r.suggestions }) := by
  funext env ps spec
  unfold analyze_openapi_url_rules analyze_openapi_spec
  cases analyzeSpecST env spec <;> rfl

/-- C3 (amended): on every parsed document the two engine variants produce
the same findings in the same order and the same summary; the rule sets
coincide (an improper superset), so consolidating on either preserves
behavior exactly. -/
theorem url_rules_refine_spec_rules (env : ValidatorEnv) (ps : List String)
    (spec : JObj) :
    analyze_openapi_url_rules env ps spec =
      (analyze_openapi_spec env spec).map
        (fun r => { r with suggestions := ps ++ r.suggestions }) := by
  unfold analyze_openapi_url_rules analyze_openapi_spec
  cases analyzeSpecST env spec <;> rfl

/-- C4 (counterexample): on the scenario document the summary reports
`operations_count = 2`, not 1, and no finding about the response content
(example / application-json / content) is produced at all. -/
theorem scenario_counterexample :
    (analyze_openapi_spec envOk docScenario).map (fun r => r.summary.operations_count) =
      some 2 ∧
    (analyze_openapi_spec envOk docScenario).map
      (fun r => r.suggestions.any (fun s =>
        pyInStr "Response" s || pyInStr "application/json" s || pyInStr "example" s)) =
      some false := by
  exact ⟨by decide, by decide⟩

/-- C4 (amended): the exact outcome on the scenario document:
`paths_count = 1`, `operations_count = 2` (the double-count of C1),
version `"3.0.0"`, and exactly the listed findings - the metadata, server,
security, operation-documentation, 4xx/5xx, operation-security, pagination
and header findings, with no duplicate-operationId finding and no
response-content findings. -/
theorem scenario_full_result :
    analyze_openapi_spec envOk docScenario = some
      { status := "success", is_valid := true
        summary := { openapi_version := some "3.0.0", paths_count := 1,
                     operations_count := 2, schemas_count := 0 }
        suggestions := [msgDescription, msgVersion, msgNoServers, msgNoGlobalSecurity,
          msgNoSchemes,
          msgMissingSummary "get" "/items", msgMissingOpDescription "get" "/items",
          msgMissingTags "get" "/items",
          msgNo4xx "get" "/items", msgNo5xx "get" "/items", msgMissingSecurity "get" "/items",
          msgPagination "get" "/items", msgRateLimit "get" "/items", msgCaching "/items"] } := by
  decide

/-- C7 (counterexample): a path key that contains no slash at all does not
start with a slash, yet evaluation emits no start-with-slash finding for
it, because line 318 requires `"/" in path` before flagging. -/
theorem missing_slash_path_no_finding :
    pyStarts "abc" "/" = false ∧
    (analyze_openapi_spec envOk docNoSlash).map
      (fun r => r.suggestions.contains (msgStartSlash "abc")) = some false := by
  exact ⟨by decide, by decide⟩

/-- C7 (amended): for every path key, the trailing-slash finding fires for
a non-root path ending in a slash, the start-with-slash finding fires
exactly when the path CONTAINS a slash somewhere and does not start with
one, and one finding fires per extracted brace parameter whose name after
stripping underscores and hyphens is not (non-empty) alphanumeric. -/
theorem path_convention_characterization (p : String) :
    pathConventionChecks p =
      (if p ≠ "/" ∧ p.data.getLast? = some '/' then [msgTrailingSlash p] else []) ++
      (if '/' ∈ p.data ∧ p.data.head? ≠ some '/' then [msgStartSlash p] else []) ++
      (if lbrace ∈ p.data ∧ rbrace ∈ p.data then
         (pathParamNames p).flatMap (fun prm =>
           if ¬ ((removeChar (removeChar prm '_') '-').data ≠ [] ∧
                 ∀ c ∈ (removeChar (removeChar prm '_') '-').data, c.isAlphanum = true) then
             [msgBadParam prm p]
           else [])
       else []) := by
  unfold pathConventionChecks
  have h1 : (p != "/" && pyEnds p "/") = true ↔ (p ≠ "/" ∧ p.data.getLast? = some '/') := by
    rw [pyEnds_getLast '/' p]
    simp [Bool.and_eq_true, bne_iff_ne]
  have h2 : (pyInStr "/" p && !pyStarts p "/") = true ↔
      ('/' ∈ p.data ∧ p.data.head? ≠ some '/') := by
    rw [show ("/" : String) = ⟨['/']⟩ from rfl, pyInStr_singleton, pyStarts_head]
    simp [Bool.and_eq_true]
  have h3 : (pyInStr lbraceStr p && pyInStr rbraceStr p) = true ↔
      (lbrace ∈ p.data ∧ rbrace ∈ p.data) := by
    rw [show lbraceStr = ⟨[lbrace]⟩ from rfl, show rbraceStr = ⟨[rbrace]⟩ from rfl,
      pyInStr_singleton, pyInStr_singleton]
    simp [Bool.and_eq_true]
  have h4 : ∀ prm : String, (!pyIsAlnum (removeChar (removeChar prm '_') '-')) = true ↔
      ¬ ((removeChar (removeChar prm '_') '-').data ≠ [] ∧
         ∀ c ∈ (removeChar (removeChar prm '_') '-').data, c.isAlphanum = true) := by
    intro prm
    simp [pyIsAlnum, List.isEmpty_iff, List.all_eq_true, Decidable.not_and_iff_or_not]
    tauto
  congr 1
  · congr 1
    · exact if_congr h1 rfl rfl
    · exact if_congr h2 rfl rfl
  · refine if_congr h3 ?_ rfl
    exact congrArg (pathParamNames p).flatMap
      (funext fun prm => if_congr (h4 prm) rfl rfl)

/-- C10: a present-but-falsy operationId (such as the empty string) yields
the missing-operationId finding and leaves the seen-identifier set
untouched; concretely, two operations both carrying operationId `""`
produce two missing-operationId findings and zero duplicate findings. -/
theorem falsy_operation_id_behavior (p method : String) (details : JObj)
    (seen : List HashKey)
    (h : truthy (pyGetN details "operationId") = false) :
    opIdCheck method p details seen = some ([msgMissingOpId method p], seen) ∧
    (analyze_openapi_spec envOk docEmptyIds).map
      (fun r => (r.suggestions.countP (fun s =>
          s == msgMissingOpId "get" "/a" || s == msgMissingOpId "get" "/b"),
        r.suggestions.filter isDupMsg)) = some (2, []) := by
  constructor
  · unfold opIdCheck
    simp [h]
  · decide

theorem falsy_operation_id_behavior_witness :
    truthy (pyGetN [("operationId", JValue.str "")] "operationId") = false ∧
    opIdCheck "get" "/w" [("operationId", JValue.str "")] [] =
      some ([msgMissingOpId "get" "/w"], []) :=
  ⟨by decide,
   (falsy_operation_id_behavior "/w" "get" [("operationId", JValue.str "")] []
      (by decide)).1⟩

/-- C6: for a PUT or DELETE operation whose description field is absent or
a string, the idempotency finding is emitted exactly when the lower-cased
description CONTAINS the substring "idempotent" (the literal behavior of
`not ... .find("idempotent") == -1` under Python precedence), and for no
other such operation. -/
theorem idempotency_finding_iff (method p : String) (details : JObj) (d : String)
    (hm : pyLower method = "put" ∨ pyLower method = "delete")
    (hd : pyGet details "description" (.str "") = .str d) :
    opIdemCheck method p details =
      some (if "idempotent".data <:+: (pyLower d).data then [msgIdempotent method p]
            else []) := by
  unfold opIdemCheck
  have hc : (["put", "delete"].contains (pyLower method)) = true := by
    rcases hm with h | h <;> simp [h]
  simp only [hc, if_true, hd, asStr, Option.bind_eq_bind, Option.some_bind]
  congr 1
  have hS : (!(pyFind (pyLower d) "idempotent" == -1)) =
      (findSubIdx (pyLower d).data "idempotent".data).isSome := by
    rw [pyFind_eq_neg_one_iff, Bool.not_not]
  rw [hS]
  by_cases hinf : "idempotent".data <:+: (pyLower d).data
  · rw [(findSubIdx_isSome_iff _ _).mpr hinf, if_pos rfl, if_pos hinf]
  · rw [if_neg hinf]
    have : (findSubIdx (pyLower d).data "idempotent".data).isSome = false :=
      Bool.eq_false_iff.mpr (fun hs => hinf ((findSubIdx_isSome_iff _ _).mp hs))
    rw [this]
    simp

theorem idempotency_finding_iff_witness :
    pyLower "PUT" = "put" ∧
    pyGet [("description", JValue.str "This call is Idempotent.")] "description"
      (.str "") = JValue.str "This call is Idempotent." ∧
    opIdemCheck "PUT" "/w" [("description", JValue.str "This call is Idempotent.")] =
      some [msgIdempotent "PUT" "/w"] := by
  refine ⟨by decide, rfl, ?_⟩
  have h := idempotency_finding_iff "PUT" "/w"
    [("description", JValue.str "This call is Idempotent.")]
    "This call is Idempotent." (Or.inl (by decide)) rfl
  rw [h, if_pos (by decide)]

/-! ## Machinery for claim C5: telling duplicate-operationId findings apart
from every other finding by their fixed leading text -/

theorem not_isPrefixOf_of_take_ne (pat l r : List Char) (k : Nat)
    (h1 : k ≤ pat.length) (h2 : k ≤ l.length)
    (hne : pat.take k ≠ l.take k) : pat.isPrefixOf (l ++ r) = false := by
  refine Bool.eq_false_iff.mpr (fun hp => ?_)
  obtain ⟨t, ht⟩ := (isPrefixOfChar _ _).mp hp
  apply hne
  calc pat.take k = (pat ++ t).take k := (List.take_append_of_le_length h1).symm
    _ = (l ++ r).take k := by rw [ht]
    _ = l.take k := List.take_append_of_le_length h2

theorem isDupMsg_append (lit rest : String) (k : Nat)
    (h1 : k ≤ ("Duplicate operationId " ++ sq).data.length)
    (h2 : k ≤ lit.data.length)
    (hne : ("Duplicate operationId " ++ sq).data.take k ≠ lit.data.take k) :
    isDupMsg (lit ++ rest) = false := by
  unfold isDupMsg
  rw [String.data_append]
  exact not_isPrefixOf_of_take_ne _ _ _ k h1 h2 hne

theorem isDupMsg_opStem (method p rest : String) :
    isDupMsg (opStem method p ++ rest) = false := by
  have hassoc : opStem method p ++ rest =
      "Operation " ++ (pyUpper method ++ (" " ++ (p ++ rest))) := by
    simp [opStem, String.append_assoc]
  rw [hassoc]
  exact isDupMsg_append "Operation " _ 1 (by decide) (by decide) (by decide)

theorem isDupMsg_true (v : JValue) : isDupMsg (msgDupOpId v) = true := by
  unfold isDupMsg msgDupOpId
  refine (isPrefixOfChar _ _).mpr ⟨(pyStr v ++ sq ++ " found.").data, ?_⟩
  simp [String.data_append, List.append_assoc, String.append_assoc]

theorem httpMethods_lower_cases (method : String)
    (hm : httpMethods.contains (pyLower method) = true) :
    pyLower method = "get" ∨ pyLower method = "post" ∨ pyLower method = "put" ∨
    pyLower method = "delete" ∨ pyLower method = "patch" ∨
    pyLower method = "options" ∨ pyLower method = "head" ∨
    pyLower method = "trace" := by
  have hmem : pyLower method ∈ httpMethods := List.elem_iff.mp hm
  simpa [httpMethods] using hmem

theorem isDupMsg_upper_headed (method rest : String)
    (hm : httpMethods.contains (pyLower method) = true) :
    isDupMsg (pyUpper method ++ rest) = false := by
  rcases httpMethods_lower_cases method hm with h|h|h|h|h|h|h|h
  · rw [(pyUpper_of_pyLower method _ h).trans (by decide : pyUpper "get" = "GET")]
    exact isDupMsg_append "GET" _ 1 (by decide) (by decide) (by decide)
  · rw [(pyUpper_of_pyLower method _ h).trans (by decide : pyUpper "post" = "POST")]
    exact isDupMsg_append "POST" _ 1 (by decide) (by decide) (by decide)
  · rw [(pyUpper_of_pyLower method _ h).trans (by decide : pyUpper "put" = "PUT")]
    exact isDupMsg_append "PUT" _ 1 (by decide) (by decide) (by decide)
  · rw [(pyUpper_of_pyLower method _ h).trans (by decide : pyUpper "delete" = "DELETE")]
    exact isDupMsg_append "DELETE" _ 2 (by decide) (by decide) (by decide)
  · rw [(pyUpper_of_pyLower method _ h).trans (by decide : pyUpper "patch" = "PATCH")]
    exact isDupMsg_append "PATCH" _ 1 (by decide) (by decide) (by decide)
  · rw [(pyUpper_of_pyLower method _ h).trans (by decide : pyUpper "options" = "OPTIONS")]
    exact isDupMsg_append "OPTIONS" _ 1 (by decide) (by decide) (by decide)
  · rw [(pyUpper_of_pyLower method _ h).trans (by decide : pyUpper "head" = "HEAD")]
    exact isDupMsg_append "HEAD" _ 1 (by decide) (by decide) (by decide)
  · rw [(pyUpper_of_pyLower method _ h).trans (by decide : pyUpper "trace" = "TRACE")]
    exact isDupMsg_append "TRACE" _ 1 (by decide) (by decide) (by decide)

theorem isDupMsg_msgServerUrl (u : String) : isDupMsg (msgServerUrl u) = false := by
  have hs : msgServerUrl u =
      "Server URL " ++ (sq ++ (u ++ (sq ++ " uses variables. Document them properly."))) := by
    simp [msgServerUrl, String.append_assoc]
  rw [hs]
  exact isDupMsg_append "Server URL " _ 1 (by decide) (by decide) (by decide)

theorem isDupMsg_msgSchemeType (n : String) : isDupMsg (msgSchemeType n) = false := by
  have hs : msgSchemeType n =
      "Security scheme " ++ (sq ++ (n ++ (sq ++ " missing type."))) := by
    simp [msgSchemeType, String.append_assoc]
  rw [hs]
  exact isDupMsg_append "Security scheme " _ 1 (by decide) (by decide) (by decide)

theorem isDupMsg_msgSchemeDescription (n : String) :
    isDupMsg (msgSchemeDescription n) = false := by
  have hs : msgSchemeDescription n =
      "Security scheme " ++ (sq ++ (n ++ (sq ++ " missing description."))) := by
    simp [msgSchemeDescription, String.append_assoc]
  rw [hs]
  exact isDupMsg_append "Security scheme " _ 1 (by decide) (by decide) (by decide)

theorem isDupMsg_msgSchemeFlows (n : String) : isDupMsg (msgSchemeFlows n) = false := by
  have hs : msgSchemeFlows n =
      "OAuth2 security scheme " ++ (sq ++ (n ++ (sq ++ " missing flows."))) := by
    simp [msgSchemeFlows, String.append_assoc]
  rw [hs]
  exact isDupMsg_append "OAuth2 security scheme " _ 1 (by decide) (by decide) (by decide)

theorem isDupMsg_msgSchemeIn (n : String) : isDupMsg (msgSchemeIn n) = false := by
  have hs : msgSchemeIn n = "API Key security scheme " ++
      (sq ++ (n ++ (sq ++ (" missing " ++ (sq ++ ("in" ++ (sq ++ " field."))))))) := by
    simp [msgSchemeIn, String.append_assoc]
  rw [hs]
  exact isDupMsg_append "API Key security scheme " _ 1 (by decide) (by decide) (by decide)

theorem isDupMsg_msgSchemeName (n : String) : isDupMsg (msgSchemeName n) = false := by
  have hs : msgSchemeName n = "API Key security scheme " ++
      (sq ++ (n ++ (sq ++ (" missing " ++ (sq ++ ("name" ++ (sq ++ " field."))))))) := by
    simp [msgSchemeName, String.append_assoc]
  rw [hs]
  exact isDupMsg_append "API Key security scheme " _ 1 (by decide) (by decide) (by decide)

theorem isDupMsg_msgTrailingSlash (p : String) :
    isDupMsg (msgTrailingSlash p) = false := by
  have hs : msgTrailingSlash p = "Path " ++
      (sq ++ (p ++ (sq ++ " has trailing slash - consider removing for consistency."))) := by
    simp [msgTrailingSlash, String.append_assoc]
  rw [hs]
  exact isDupMsg_append "Path " _ 1 (by decide) (by decide) (by decide)

theorem isDupMsg_msgStartSlash (p : String) : isDupMsg (msgStartSlash p) = false := by
  have hs : msgStartSlash p = "Path " ++
      (sq ++ (p ++ (sq ++ (" should start with " ++ (sq ++ ("/" ++ (sq ++ "."))))))) := by
    simp [msgStartSlash, String.append_assoc]
  rw [hs]
  exact isDupMsg_append "Path " _ 1 (by decide) (by decide) (by decide)

theorem isDupMsg_msgBadParam (prm p : String) : isDupMsg (msgBadParam prm p) = false := by
  have hs : msgBadParam prm p = "Path parameter " ++
      (sq ++ (prm ++ (sq ++ (" in " ++ (sq ++ (p ++
        (sq ++ " should use alphanumeric characters only."))))))) := by
    simp [msgBadParam, String.append_assoc]
  rw [hs]
  exact isDupMsg_append "Path parameter " _ 1 (by decide) (by decide) (by decide)

theorem isDupMsg_msgGetBody (p : String) : isDupMsg (msgGetBody p) = false := by
  have hs : msgGetBody p =
      "GET operation " ++ (p ++ " should not have requestBody.") := by
    simp [msgGetBody, String.append_assoc]
  rw [hs]
  exact isDupMsg_append "GET operation " _ 1 (by decide) (by decide) (by decide)

theorem isDupMsg_msgNeedsBody (method p : String)
    (hm : httpMethods.contains (pyLower method) = true) :
    isDupMsg (msgNeedsBody method p) = false := by
  have hs : msgNeedsBody method p =
      pyUpper method ++ (" operation " ++ (p ++ " should have requestBody.")) := by
    simp [msgNeedsBody, String.append_assoc]
  rw [hs]
  exact isDupMsg_upper_headed method _ hm

theorem isDupMsg_msgDeleteBody (p : String) : isDupMsg (msgDeleteBody p) = false := by
  have hs : msgDeleteBody p =
      "DELETE operation " ++ (p ++ " typically should not have requestBody.") := by
    simp [msgDeleteBody, String.append_assoc]
  rw [hs]
  exact isDupMsg_append "DELETE operation " _ 2 (by decide) (by decide) (by decide)

theorem isDupMsg_msgIdempotent (method p : String)
    (hm : httpMethods.contains (pyLower method) = true) :
    isDupMsg (msgIdempotent method p) = false := by
  have hs : msgIdempotent method p =
      pyUpper method ++ (" operation " ++ (p ++ " should document idempotent behavior.")) := by
    simp [msgIdempotent, String.append_assoc]
  rw [hs]
  exact isDupMsg_upper_headed method _ hm

theorem isDupMsg_msgParamNameIn (method p : String) :
    isDupMsg (msgParamNameIn method p) = false := by
  have hs : msgParamNameIn method p =
      "Parameter in " ++ (pyUpper method ++ (" " ++ (p ++ " missing name or in."))) := by
    simp [msgParamNameIn, String.append_assoc]
  rw [hs]
  exact isDupMsg_append "Parameter in " _ 1 (by decide) (by decide) (by decide)

theorem isDupMsg_msgDupParam (name loc : JValue) (method p : String) :
    isDupMsg (msgDupParam name loc method p) = false := by
  have hs : msgDupParam name loc method p =
      "Duplicate parameter " ++ (pyStr name ++ (" in " ++ (pyStr loc ++ (" for " ++
        (pyUpper method ++ (" " ++ (p ++ "."))))))) := by
    simp [msgDupParam, String.append_assoc]
  rw [hs]
  exact isDupMsg_append "Duplicate parameter " _ 11 (by decide) (by decide) (by decide)

theorem isDupMsg_msgParamDescription (name loc : JValue) (method p : String) :
    isDupMsg (msgParamDescription name loc method p) = false := by
  have hs : msgParamDescription name loc method p =
      "Parameter " ++ (pyStr name ++ (" in " ++ (pyStr loc ++ (" of " ++
        (pyUpper method ++ (" " ++ (p ++ " missing description."))))))) := by
    simp [msgParamDescription, String.append_assoc]
  rw [hs]
  exact isDupMsg_append "Parameter " _ 1 (by decide) (by decide) (by decide)

theorem isDupMsg_msgRbNoContent (method p : String)
    (hm : httpMethods.contains (pyLower method) = true) :
    isDupMsg (msgRbNoContent method p) = false := by
  have hs : msgRbNoContent method p =
      pyUpper method ++ (" " ++ (p ++ " requestBody has no content defined.")) := by
    simp [msgRbNoContent, String.append_assoc]
  rw [hs]
  exact isDupMsg_upper_headed method _ hm

theorem isDupMsg_msgRbNoJson (method p : String)
    (hm : httpMethods.contains (pyLower method) = true) :
    isDupMsg (msgRbNoJson method p) = false := by
  have hs : msgRbNoJson method p = pyUpper method ++
      (" " ++ (p ++ " requestBody should include application/json content type.")) := by
    simp [msgRbNoJson, String.append_assoc]
  rw [hs]
  exact isDupMsg_upper_headed method _ hm

theorem isDupMsg_msgRbNoExamples (method p ct : String)
    (hm : httpMethods.contains (pyLower method) = true) :
    isDupMsg (msgRbNoExamples method p ct) = false := by
  have hs : msgRbNoExamples method p ct = pyUpper method ++
      (" " ++ (p ++ (" requestBody content " ++ (ct ++ " missing examples.")))) := by
    simp [msgRbNoExamples, String.append_assoc]
  rw [hs]
  exact isDupMsg_upper_headed method _ hm

theorem isDupMsg_msgRespNoDescription (code method p : String) :
    isDupMsg (msgRespNoDescription code method p) = false := by
  have hs : msgRespNoDescription code method p = "Response " ++
      (code ++ (" of " ++ (pyUpper method ++ (" " ++ (p ++ " missing description."))))) := by
    simp [msgRespNoDescription, String.append_assoc]
  rw [hs]
  exact isDupMsg_append "Response " _ 1 (by decide) (by decide) (by decide)

theorem isDupMsg_msgRespNoJson (code method p : String) :
    isDupMsg (msgRespNoJson code method p) = false := by
  have hs : msgRespNoJson code method p = "Response " ++
      (code ++ (" of " ++ (pyUpper method ++ (" " ++
        (p ++ " should include application/json content type."))))) := by
    simp [msgRespNoJson, String.append_assoc]
  rw [hs]
  exact isDupMsg_append "Response " _ 1 (by decide) (by decide) (by decide)

theorem isDupMsg_msgRespNoSchema (code method p ct : String) :
    isDupMsg (msgRespNoSchema code method p ct) = false := by
  have hs : msgRespNoSchema code method p ct = "Response " ++
      (code ++ (" of " ++ (pyUpper method ++ (" " ++ (p ++ (" with content " ++
        (ct ++ " missing schema."))))))) := by
    simp [msgRespNoSchema, String.append_assoc]
  rw [hs]
  exact isDupMsg_append "Response " _ 1 (by decide) (by decide) (by decide)

theorem isDupMsg_msgRespNoExamples (code method p ct : String) :
    isDupMsg (msgRespNoExamples code method p ct) = false := by
  have hs : msgRespNoExamples code method p ct = "Response " ++
      (code ++ (" of " ++ (pyUpper method ++ (" " ++ (p ++ (" content " ++
        (ct ++ " missing examples."))))))) := by
    simp [msgRespNoExamples, String.append_assoc]
  rw [hs]
  exact isDupMsg_append "Response " _ 1 (by decide) (by decide) (by decide)

theorem isDupMsg_schema_headed (rest : String) :
    isDupMsg ("Schema " ++ rest) = false :=
  isDupMsg_append "Schema " rest 1 (by decide) (by decide) (by decide)

theorem isDupMsg_msgPagination (method p : String) :
    isDupMsg (msgPagination method p) = false := by
  have hs : msgPagination method p = "List operation " ++
      (pyUpper method ++ (" " ++ (p ++ " should support pagination parameters."))) := by
    simp [msgPagination, String.append_assoc]
  rw [hs]
  exact isDupMsg_append "List operation " _ 1 (by decide) (by decide) (by decide)

theorem isDupMsg_msgCaching (p : String) : isDupMsg (msgCaching p) = false := by
  have hs : msgCaching p =
      "GET operation " ++ (p ++ " should document caching headers.") := by
    simp [msgCaching, String.append_assoc]
  rw [hs]
  exact isDupMsg_append "GET operation " _ 1 (by decide) (by decide) (by decide)

theorem mem_ite_singleton {α : Type} {c : Prop} [Decidable c] {a s : α}
    (h : s ∈ if c then [a] else ([] : List α)) : s = a := by
  split at h
  · simpa using h
  · simp at h

theorem isDupMsg_msgSchemaType (n : String) : isDupMsg (msgSchemaType n) = false := by
  have hs : msgSchemaType n =
      "Schema " ++ (n ++ " missing type or composition keyword.") := by
    simp [msgSchemaType, String.append_assoc]
  rw [hs]
  exact isDupMsg_schema_headed _

theorem isDupMsg_msgSchemaDescription (n : String) :
    isDupMsg (msgSchemaDescription n) = false := by
  have hs : msgSchemaDescription n = "Schema " ++ (n ++ " missing description.") := by
    simp [msgSchemaDescription, String.append_assoc]
  rw [hs]
  exact isDupMsg_schema_headed _

theorem isDupMsg_msgSchemaRequired (n : String) (rf : JValue) :
    isDupMsg (msgSchemaRequired n rf) = false := by
  have hs : msgSchemaRequired n rf = "Schema " ++ (n ++ (" has required field " ++
      (sq ++ (pyStr rf ++ (sq ++ " not defined in properties."))))) := by
    simp [msgSchemaRequired, String.append_assoc]
  rw [hs]
  exact isDupMsg_schema_headed _

theorem isDupMsg_msgPropDescription (n prop : String) :
    isDupMsg (msgPropDescription n prop) = false := by
  have hs : msgPropDescription n prop = "Schema " ++ (n ++ (" property " ++
      (sq ++ (prop ++ (sq ++ " missing description."))))) := by
    simp [msgPropDescription, String.append_assoc]
  rw [hs]
  exact isDupMsg_schema_headed _

theorem isDupMsg_msgPropType (n prop : String) :
    isDupMsg (msgPropType n prop) = false := by
  have hs : msgPropType n prop = "Schema " ++ (n ++ (" property " ++
      (sq ++ (prop ++ (sq ++ " missing type or $ref."))))) := by
    simp [msgPropType, String.append_assoc]
  rw [hs]
  exact isDupMsg_schema_headed _

theorem isDupMsg_msgPropNullable (n prop : String) :
    isDupMsg (msgPropNullable n prop) = false := by
  have hs : msgPropNullable n prop = "Schema " ++ (n ++ (" property " ++
      (sq ++ (prop ++ (sq ++ " should use nullable: true instead of type: null."))))) := by
    simp [msgPropNullable, String.append_assoc]
  rw [hs]
  exact isDupMsg_schema_headed _

theorem isDupMsg_msgSchemaExamples (n : String) :
    isDupMsg (msgSchemaExamples n) = false := by
  have hs : msgSchemaExamples n = "Schema " ++ (n ++ " missing example or examples.") := by
    simp [msgSchemaExamples, String.append_assoc]
  rw [hs]
  exact isDupMsg_schema_headed _

theorem isDupMsg_validation_headed (e : String) :
    isDupMsg ("Spec validation: " ++ e) = false :=
  isDupMsg_append "Spec validation: " e 1 (by decide) (by decide) (by decide)

/-- Membership in the result of an `Option`-monadic `mapM` comes from
membership in the input list. -/
theorem mapM_option_mem {α β : Type} (f : α → Option β) :
    ∀ (l : List α) (res : List β), l.mapM f = some res →
      ∀ b ∈ res, ∃ a, a ∈ l ∧ f a = some b := by
  intro l
  induction l with
  | nil =>
    intro res h b hb
    rw [List.mapM_nil] at h
    injection h with h
    subst h
    simp at hb
  | cons a t ih =>
    intro res h b hb
    rw [List.mapM_cons] at h
    simp only [Option.bind_eq_bind, Option.bind_eq_some, Option.pure_def,
      Option.some.injEq] at h
    obtain ⟨x, hx, xs, hxs, hres⟩ := h
    subst hres
    rcases List.mem_cons.mp hb with hb | hb
    · exact ⟨a, List.mem_cons_self a t, hb ▸ hx⟩
    · obtain ⟨a', ha', hfa'⟩ := ih xs hxs b hb
      exact ⟨a', List.mem_cons_of_mem a ha', hfa'⟩

theorem any_ext {α : Type} (l : List α) (f g : α → Bool)
    (h : ∀ x ∈ l, f x = g x) : l.any f = l.any g := by
  induction l with
  | nil => rfl
  | cons a t ih =>
    rw [List.any_cons, List.any_cons, h a (List.mem_cons_self a t),
      ih (fun x hx => h x (List.mem_cons_of_mem a hx))]

theorem laterDuplicatesAux_append (xs : List JValue) :
    ∀ (prior ys : List JValue),
      laterDuplicatesAux prior (xs ++ ys) =
        laterDuplicatesAux prior xs ++ laterDuplicatesAux (prior ++ xs) ys := by
  induction xs with
  | nil => intro prior ys; simp [laterDuplicatesAux]
  | cons v t ih =>
    intro prior ys
    show laterDuplicatesAux prior (v :: (t ++ ys)) = _
    rw [laterDuplicatesAux, ih (prior ++ [v]) ys, laterDuplicatesAux]
    simp [List.append_assoc]

/-! ## The non-operation phases emit no duplicate-operationId finding -/

theorem filter_isDupMsg_nil {l : List String} (h : ∀ s ∈ l, isDupMsg s = false) :
    l.filter isDupMsg = [] :=
  List.filter_eq_nil_iff.mpr (fun a ha => by simp [h a ha])

theorem validator_no_dup (env : ValidatorEnv) (spec : JObj) :
    (validatorSuggs env spec).filter isDupMsg = [] := by
  unfold validatorSuggs
  cases env with
  | none =>
    show List.filter isDupMsg
        ["Could not import openapi-spec-validator, skipping validation."] = []
    decide
  | some f =>
    cases hfs : f spec with
    | none => simp [hfs]
    | some e => simp [hfs, List.filter_cons, isDupMsg_validation_headed e]

theorem infoChecks_no_dup (spec : JObj) (fs : List String)
    (h : infoChecks spec = some fs) : fs.filter isDupMsg = [] := by
  unfold infoChecks at h
  simp only [Option.bind_eq_bind, Option.bind_eq_some, Option.some.injEq] at h
  obtain ⟨info, -, h⟩ := h
  subst h
  refine List.filter_eq_nil_iff.mpr (fun s hs => ?_)
  simp only [List.mem_append] at hs
  rcases hs with (hs | hs) | hs <;> rw [mem_ite_singleton hs] <;> decide

theorem serverItemCheck_no_dup (sv : JValue) (fs : List String)
    (h : serverItemCheck sv = some fs) : ∀ s ∈ fs, isDupMsg s = false := by
  intro s hs
  cases sv with
  | obj o =>
    simp only [serverItemCheck] at h
    split at h
    · simp only [Option.map_eq_some'] at h
      obtain ⟨b, -, h⟩ := h
      subst h
      rw [mem_ite_singleton hs]
      exact isDupMsg_msgServerUrl _
    · injection h with h
      subst h
      simp at hs
  | null => simp only [serverItemCheck, Option.some.injEq] at h; subst h; simp at hs
  | bool b => simp only [serverItemCheck, Option.some.injEq] at h; subst h; simp at hs
  | num n => simp only [serverItemCheck, Option.some.injEq] at h; subst h; simp at hs
  | str s' => simp only [serverItemCheck, Option.some.injEq] at h; subst h; simp at hs
  | arr l => simp only [serverItemCheck, Option.some.injEq] at h; subst h; simp at hs

theorem serverChecks_no_dup (spec : JObj) (fs : List String)
    (h : serverChecks spec = some fs) : fs.filter isDupMsg = [] := by
  simp only [serverChecks] at h
  split at h
  · injection h with h
    subst h
    decide
  · simp only [Option.bind_eq_bind, Option.bind_eq_some, Option.some.injEq] at h
    obtain ⟨items, -, ls, hls, h⟩ := h
    subst h
    refine List.filter_eq_nil_iff.mpr (fun s hs => ?_)
    rw [List.mem_flatten] at hs
    obtain ⟨l, hl, hsl⟩ := hs
    obtain ⟨sv, -, hsv⟩ := mapM_option_mem serverItemCheck items ls hls l hl
    simp [serverItemCheck_no_dup sv l hsv s hsl]

theorem globalSecurityCheck_no_dup (spec : JObj) :
    (globalSecurityCheck spec).filter isDupMsg = [] := by
  unfold globalSecurityCheck
  split <;> decide

theorem schemeChecks_no_dup (name : String) (sdef : JValue) :
    ∀ s ∈ schemeChecks name sdef, isDupMsg s = false := by
  intro s hs
  unfold schemeChecks at hs
  cases sdef with
  | obj d =>
    simp only [List.mem_append] at hs
    rcases hs with (hs | hs) | hs
    · rw [mem_ite_singleton hs]; exact isDupMsg_msgSchemeType name
    · rw [mem_ite_singleton hs]; exact isDupMsg_msgSchemeDescription name
    · split at hs
      · rw [mem_ite_singleton hs]; exact isDupMsg_msgSchemeFlows name
      · split at hs
        · simp only [List.mem_append] at hs
          rcases hs with hs | hs
          · rw [mem_ite_singleton hs]; exact isDupMsg_msgSchemeIn name
          · rw [mem_ite_singleton hs]; exact isDupMsg_msgSchemeName name
        · simp at hs
  | null => simp at hs
  | bool b => simp at hs
  | num n => simp at hs
  | str s' => simp at hs
  | arr l => simp at hs

theorem securitySchemesChecks_no_dup (componentsV : JValue) (fs : List String)
    (h : securitySchemesChecks componentsV = some fs) : fs.filter isDupMsg = [] := by
  unfold securitySchemesChecks at h
  simp only [Option.bind_eq_bind, Option.bind_eq_some] at h
  obtain ⟨comps, -, h⟩ := h
  split at h
  · injection h with h
    subst h
    split
    · decide
    · refine List.filter_eq_nil_iff.mpr (fun s hs => ?_)
      rw [List.mem_flatMap] at hs
      obtain ⟨q, -, hq⟩ := hs
      simp [schemeChecks_no_dup q.1 q.2 s hq]
  · injection h with h
    subst h
    rfl

theorem pathConventionChecks_no_dup (p : String) :
    ∀ s ∈ pathConventionChecks p, isDupMsg s = false := by
  intro s hs
  unfold pathConventionChecks at hs
  simp only [List.mem_append] at hs
  rcases hs with (hs | hs) | hs
  · rw [mem_ite_singleton hs]; exact isDupMsg_msgTrailingSlash p
  · rw [mem_ite_singleton hs]; exact isDupMsg_msgStartSlash p
  · split at hs
    · rw [List.mem_flatMap] at hs
      obtain ⟨prm, -, hprm⟩ := hs
      rw [mem_ite_singleton hprm]
      exact isDupMsg_msgBadParam prm p
    · simp at hs

theorem pathsKeyChecks_no_dup (paths : JObj) :
    (pathsKeyChecks paths).filter isDupMsg = [] := by
  refine List.filter_eq_nil_iff.mpr (fun s hs => ?_)
  unfold pathsKeyChecks at hs
  rw [List.mem_flatMap] at hs
  obtain ⟨pm, -, hpm⟩ := hs
  simp [pathConventionChecks_no_dup pm.1 s hpm]

theorem requiredChecks_no_dup (sname : String) (d : JObj) (fs : List String)
    (h : requiredChecks sname d = some fs) : ∀ s ∈ fs, isDupMsg s = false := by
  intro s hs
  unfold requiredChecks at h
  split at h
  · simp only [Option.bind_eq_bind, Option.bind_eq_some, Option.some.injEq] at h
    obtain ⟨ls, hls, h⟩ := h
    subst h
    rw [List.mem_flatten] at hs
    obtain ⟨l, hl, hsl⟩ := hs
    obtain ⟨rf, -, hrf⟩ := mapM_option_mem _ _ ls hls l hl
    simp only [Option.bind_eq_bind, Option.bind_eq_some, Option.some.injEq] at hrf
    obtain ⟨b, -, hrf⟩ := hrf
    subst hrf
    rw [mem_ite_singleton hsl]
    exact isDupMsg_msgSchemaRequired sname rf
  · simp only [Option.some.injEq] at h
    subst h
    simp at hs

theorem schemaEntryChecks_no_dup (sname : String) (sdef : JValue) (fs : List String)
    (h : schemaEntryChecks sname sdef = some fs) : ∀ s ∈ fs, isDupMsg s = false := by
  intro s hs
  cases sdef with
  | obj d =>
    simp only [schemaEntryChecks, Option.bind_eq_bind, Option.bind_eq_some,
      Option.some.injEq] at h
    obtain ⟨reqMsgs, hreq, h⟩ := h
    subst h
    simp only [List.mem_append] at hs
    rcases hs with (((hs | hs) | hs) | hs) | hs
    · rw [mem_ite_singleton hs]; exact isDupMsg_msgSchemaType sname
    · rw [mem_ite_singleton hs]; exact isDupMsg_msgSchemaDescription sname
    · exact requiredChecks_no_dup sname d reqMsgs hreq s hs
    · split at hs
      · rw [List.mem_flatMap] at hs
        obtain ⟨q, -, hq⟩ := hs
        split at hq
        · simp only [List.mem_append] at hq
          rcases hq with (hq | hq) | hq
          · rw [mem_ite_singleton hq]; exact isDupMsg_msgPropDescription sname q.1
          · rw [mem_ite_singleton hq]; exact isDupMsg_msgPropType sname q.1
          · split at hq
            · rw [mem_ite_singleton hq]; exact isDupMsg_msgPropNullable sname q.1
            · simp at hq
        · simp at hq
      · simp at hs
    · rw [mem_ite_singleton hs]; exact isDupMsg_msgSchemaExamples sname
  | null => simp only [schemaEntryChecks, Option.some.injEq] at h; subst h; simp at hs
  | bool b => simp only [schemaEntryChecks, Option.some.injEq] at h; subst h; simp at hs
  | num n => simp only [schemaEntryChecks, Option.some.injEq] at h; subst h; simp at hs
  | str s' => simp only [schemaEntryChecks, Option.some.injEq] at h; subst h; simp at hs
  | arr l => simp only [schemaEntryChecks, Option.some.injEq] at h; subst h; simp at hs

theorem schemaChecks_no_dup (schemasV : JValue) (fs : List String)
    (h : schemaChecks schemasV = some fs) : fs.filter isDupMsg = [] := by
  unfold schemaChecks at h
  simp only [Option.bind_eq_bind, Option.bind_eq_some, Option.some.injEq] at h
  obtain ⟨schemas, -, ls, hls, h⟩ := h
  subst h
  refine List.filter_eq_nil_iff.mpr (fun s hs => ?_)
  rw [List.mem_flatten] at hs
  obtain ⟨l, hl, hsl⟩ := hs
  obtain ⟨q, -, hq⟩ := mapM_option_mem _ _ ls hls l hl
  simp [schemaEntryChecks_no_dup q.1 q.2 l hq s hsl]

theorem extraOpChecks_no_dup (p method : String) (details : JObj) (fs : List String)
    (h : extraOpChecks p method details = some fs) : ∀ s ∈ fs, isDupMsg s = false := by
  intro s hs
  simp only [extraOpChecks, Option.bind_eq_bind, Option.bind_eq_some,
    Option.some.injEq] at h
  obtain ⟨pag, hpag, r, -, h⟩ := h
  subst h
  simp only [List.mem_append] at hs
  rcases hs with (hs | hs) | hs
  · unfold paginationCheck at hpag
    split at hpag
    · simp only [Option.bind_eq_bind, Option.bind_eq_some, Option.some.injEq] at hpag
      obtain ⟨items, -, hasPag, -, hpag⟩ := hpag
      subst hpag
      rw [mem_ite_singleton hs]
      exact isDupMsg_msgPagination method p
    · simp only [Option.some.injEq] at hpag
      subst hpag
      simp at hs
  · rw [mem_ite_singleton hs]
    exact isDupMsg_opStem method p " should document rate limiting headers."
  · rw [mem_ite_singleton hs]
    exact isDupMsg_msgCaching p

theorem extraMethodsLoop_no_dup (p : String) :
    ∀ (ms : List (String × JValue)) (fs : List String),
      extraMethodsLoop p ms = some fs → ∀ s ∈ fs, isDupMsg s = false := by
  intro ms
  induction ms with
  | nil =>
    intro fs h s hs
    simp only [extraMethodsLoop, Option.some.injEq] at h
    subst h
    simp at hs
  | cons q rest ih =>
    obtain ⟨method, dv⟩ := q
    intro fs h s hs
    cases dv with
    | obj details =>
      simp only [extraMethodsLoop, Option.bind_eq_bind, Option.bind_eq_some,
        Option.some.injEq] at h
      obtain ⟨fs₁, hfs₁, r, hr, h⟩ := h
      subst h
      rcases List.mem_append.mp hs with hs | hs
      · exact extraOpChecks_no_dup p method details fs₁ hfs₁ s hs
      · exact ih r hr s hs
    | null => exact ih fs (by simpa [extraMethodsLoop] using h) s hs
    | bool b => exact ih fs (by simpa [extraMethodsLoop] using h) s hs
    | num n => exact ih fs (by simpa [extraMethodsLoop] using h) s hs
    | str s' => exact ih fs (by simpa [extraMethodsLoop] using h) s hs
    | arr l => exact ih fs (by simpa [extraMethodsLoop] using h) s hs

theorem extraChecksPhase_no_dup :
    ∀ (paths : List (String × JValue)) (fs : List String),
      extraChecksPhase paths = some fs → fs.filter isDupMsg = [] := by
  intro paths
  induction paths with
  | nil =>
    intro fs h
    simp only [extraChecksPhase, Option.some.injEq] at h
    subst h
    rfl
  | cons q rest ih =>
    obtain ⟨p, mv⟩ := q
    intro fs h
    cases mv with
    | obj ms =>
      simp only [extraChecksPhase, Option.bind_eq_bind, Option.bind_eq_some,
        Option.some.injEq] at h
      obtain ⟨fs₁, hfs₁, r, hr, h⟩ := h
      subst h
      rw [List.filter_append, ih r hr, List.append_nil]
      exact filter_isDupMsg_nil (extraMethodsLoop_no_dup p ms fs₁ hfs₁)
    | null => exact ih fs (by simpa [extraChecksPhase] using h)
    | bool b => exact ih fs (by simpa [extraChecksPhase] using h)
    | num n => exact ih fs (by simpa [extraChecksPhase] using h)
    | str s' => exact ih fs (by simpa [extraChecksPhase] using h)
    | arr l => exact ih fs (by simpa [extraChecksPhase] using h)

theorem opDocChecks_no_dup (method p : String) (details : JObj) :
    ∀ s ∈ opDocChecks method p details, isDupMsg s = false := by
  intro s hs
  unfold opDocChecks at hs
  simp only [List.mem_append] at hs
  rcases hs with ((hs | hs) | hs) | hs
  · rw [mem_ite_singleton hs]
    exact isDupMsg_opStem method p " missing summary."
  · rw [mem_ite_singleton hs]
    exact isDupMsg_opStem method p " missing description."
  · rw [mem_ite_singleton hs]
    exact isDupMsg_opStem method p " missing tags for grouping."
  · split at hs
    · simp only [List.mem_singleton] at hs
      subst hs
      exact isDupMsg_opStem method p " is deprecated - consider adding migration info."
    · simp at hs

theorem small_contains_http (method : String)
    (hc : (["post", "put", "patch"].contains (pyLower method)) = true) :
    httpMethods.contains (pyLower method) = true := by
  have hmem : pyLower method ∈ ["post", "put", "patch"] := List.elem_iff.mp hc
  rcases (by simpa using hmem : pyLower method = "post" ∨ pyLower method = "put" ∨
      pyLower method = "patch") with h | h | h <;> rw [h] <;> decide

theorem putdelete_contains_http (method : String)
    (hc : (["put", "delete"].contains (pyLower method)) = true) :
    httpMethods.contains (pyLower method) = true := by
  have hmem : pyLower method ∈ ["put", "delete"] := List.elem_iff.mp hc
  rcases (by simpa using hmem : pyLower method = "put" ∨ pyLower method = "delete")
    with h | h <;> rw [h] <;> decide

theorem opBodyChecks_no_dup (method p : String) (details : JObj) :
    ∀ s ∈ opBodyChecks method p details, isDupMsg s = false := by
  intro s hs
  unfold opBodyChecks at hs
  split at hs
  · simp only [List.mem_singleton] at hs
    subst hs
    exact isDupMsg_msgGetBody p
  · split at hs
    · rename_i hc
      simp only [List.mem_singleton] at hs
      subst hs
      exact isDupMsg_msgNeedsBody method p
        (small_contains_http method (Bool.and_eq_true .. ▸ hc).1)
    · split at hs
      · simp only [List.mem_singleton] at hs
        subst hs
        exact isDupMsg_msgDeleteBody p
      · simp at hs

theorem opIdemCheck_no_dup (method p : String) (details : JObj) (fs : List String)
    (h : opIdemCheck method p details = some fs) : ∀ s ∈ fs, isDupMsg s = false := by
  intro s hs
  unfold opIdemCheck at h
  split at h
  · rename_i hc
    simp only [Option.bind_eq_bind, Option.bind_eq_some, Option.some.injEq] at h
    obtain ⟨d, -, h⟩ := h
    subst h
    rw [mem_ite_singleton hs]
    exact isDupMsg_msgIdempotent method p (putdelete_contains_http method hc)
  · simp only [Option.some.injEq] at h
    subst h
    simp at hs

theorem paramEntryCheck_no_dup (method p : String) (prm : JValue)
    (seen seen₂ : List (HashKey × HashKey)) (fs : List String)
    (h : paramEntryCheck method p prm seen = some (fs, seen₂)) :
    ∀ s ∈ fs, isDupMsg s = false := by
  intro s hs
  cases prm with
  | obj pd =>
    simp only [paramEntryCheck] at h
    split at h
    · simp only [Option.some.injEq, Prod.mk.injEq] at h
      obtain ⟨hfs, -⟩ := h
      subst hfs
      rcases List.mem_append.mp hs with hs | hs
      · simp only [List.mem_singleton] at hs
        subst hs
        exact isDupMsg_msgParamNameIn method p
      · rw [mem_ite_singleton hs]
        exact isDupMsg_msgParamDescription _ _ method p
    · simp only [Option.bind_eq_bind, Option.bind_eq_some, Option.some.injEq] at h
      obtain ⟨kn, -, kl, -, h⟩ := h
      split at h
      · simp only [Option.some.injEq, Prod.mk.injEq] at h
        obtain ⟨hfs, -⟩ := h
        subst hfs
        rcases List.mem_append.mp hs with hs | hs
        · simp only [List.mem_singleton] at hs
          subst hs
          exact isDupMsg_msgDupParam _ _ method p
        · rw [mem_ite_singleton hs]
          exact isDupMsg_msgParamDescription _ _ method p
      · simp only [Option.some.injEq, Prod.mk.injEq] at h
        obtain ⟨hfs, -⟩ := h
        subst hfs
        rw [mem_ite_singleton hs]
        exact isDupMsg_msgParamDescription _ _ method p
  | null => simp only [paramEntryCheck, Option.some.injEq, Prod.mk.injEq] at h
            obtain ⟨hfs, -⟩ := h
            subst hfs
            simp at hs
  | bool b => simp only [paramEntryCheck, Option.some.injEq, Prod.mk.injEq] at h
              obtain ⟨hfs, -⟩ := h
              subst hfs
              simp at hs
  | num n => simp only [paramEntryCheck, Option.some.injEq, Prod.mk.injEq] at h
             obtain ⟨hfs, -⟩ := h
             subst hfs
             simp at hs
  | str s2 => simp only [paramEntryCheck, Option.some.injEq, Prod.mk.injEq] at h
              obtain ⟨hfs, -⟩ := h
              subst hfs
              simp at hs
  | arr l => simp only [paramEntryCheck, Option.some.injEq, Prod.mk.injEq] at h
             obtain ⟨hfs, -⟩ := h
             subst hfs
             simp at hs

theorem paramListCheck_no_dup (method p : String) :
    ∀ (params : List JValue) (seen : List (HashKey × HashKey)) (fs : List String),
      paramListCheck method p params seen = some fs → ∀ s ∈ fs, isDupMsg s = false := by
  intro params
  induction params with
  | nil =>
    intro seen fs h s hs
    simp only [paramListCheck, Option.some.injEq] at h
    subst h
    simp at hs
  | cons prm rest ih =>
    intro seen fs h s hs
    simp only [paramListCheck, Option.bind_eq_bind, Option.bind_eq_some,
      Option.some.injEq] at h
    obtain ⟨⟨fs₁, seen₂⟩, hp, r, hr, h⟩ := h
    subst h
    rcases List.mem_append.mp hs with hs | hs
    · exact paramEntryCheck_no_dup method p prm seen seen₂ fs₁ hp s hs
    · exact ih seen₂ r hr s hs

theorem opParamChecks_no_dup (method p : String) (details : JObj) (fs : List String)
    (h : opParamChecks method p details = some fs) : ∀ s ∈ fs, isDupMsg s = false := by
  intro s hs
  unfold opParamChecks at h
  split at h
  · exact paramListCheck_no_dup method p _ [] fs h s hs
  · simp only [Option.some.injEq] at h
    subst h
    simp at hs

theorem opRequestBodyChecks_no_dup (method p : String) (details : JObj)
    (fs : List String) (hm : httpMethods.contains (pyLower method) = true)
    (h : opRequestBodyChecks method p details = some fs) :
    ∀ s ∈ fs, isDupMsg s = false := by
  intro s hs
  unfold opRequestBodyChecks at h
  split at h
  · split at h
    · simp only [] at h
      split at h
      · simp only [Option.some.injEq] at h
        subst h
        simp only [List.mem_singleton] at hs
        subst hs
        exact isDupMsg_msgRbNoContent method p hm
      · simp only [Option.bind_eq_bind, Option.bind_eq_some, Option.some.injEq] at h
        obtain ⟨c, -, h⟩ := h
        subst h
        rcases List.mem_append.mp hs with hs | hs
        · rw [mem_ite_singleton hs]
          exact isDupMsg_msgRbNoJson method p hm
        · rw [List.mem_flatMap] at hs
          obtain ⟨q, -, hq⟩ := hs
          split at hq
          · rw [mem_ite_singleton hq]
            exact isDupMsg_msgRbNoExamples method p q.1 hm
          · simp at hq
    · simp only [Option.some.injEq] at h
      subst h
      simp at hs
  · simp only [Option.some.injEq] at h
    subst h
    simp at hs

theorem respContentEntry_no_dup (code method p ct : String) (cv : JValue)
    (fs : List String) (h : respContentEntry code method p ct cv = some fs) :
    ∀ s ∈ fs, isDupMsg s = false := by
  intro s hs
  unfold respContentEntry at h
  simp only [Option.bind_eq_bind, Option.bind_eq_some, Option.some.injEq] at h
  obtain ⟨cvo, -, h⟩ := h
  subst h
  rcases List.mem_append.mp hs with hs | hs
  · rw [mem_ite_singleton hs]
    exact isDupMsg_msgRespNoSchema code method p ct
  · rw [mem_ite_singleton hs]
    exact isDupMsg_msgRespNoExamples code method p ct

theorem respContentChecks_no_dup (code method p : String) (rdo : JObj)
    (fs : List String) (h : respContentChecks code method p rdo = some fs) :
    ∀ s ∈ fs, isDupMsg s = false := by
  intro s hs
  unfold respContentChecks at h
  split at h
  · simp only [Option.bind_eq_bind, Option.bind_eq_some, Option.some.injEq] at h
    obtain ⟨per, hper, h⟩ := h
    subst h
    rcases List.mem_append.mp hs with hs | hs
    · rw [mem_ite_singleton hs]
      exact isDupMsg_msgRespNoJson code method p
    · rw [List.mem_flatten] at hs
      obtain ⟨l, hl, hsl⟩ := hs
      obtain ⟨q, -, hq⟩ := mapM_option_mem _ _ per hper l hl
      exact respContentEntry_no_dup code method p q.1 q.2 l hq s hsl
  · simp only [Option.some.injEq] at h
    subst h
    simp at hs

theorem respEntriesChecks_no_dup (method p : String) :
    ∀ (entries : List (String × JValue)) (fs : List String),
      respEntriesChecks method p entries = some fs → ∀ s ∈ fs, isDupMsg s = false := by
  intro entries
  induction entries with
  | nil =>
    intro fs h s hs
    simp only [respEntriesChecks, Option.some.injEq] at h
    subst h
    simp at hs
  | cons e rest ih =>
    obtain ⟨code, rd⟩ := e
    intro fs h s hs
    cases rd with
    | obj rdo =>
      simp only [respEntriesChecks] at h
      simp only [Option.bind_eq_bind, Option.bind_eq_some, Option.some.injEq] at h
      obtain ⟨cMsgs, hc, r, hr, h⟩ := h
      subst h
      simp only [List.mem_append] at hs
      rcases hs with (hs | hs) | hs
      · rw [mem_ite_singleton hs]
        exact isDupMsg_msgRespNoDescription code method p
      · exact respContentChecks_no_dup code method p rdo cMsgs hc s hs
      · exact ih r hr s hs
    | null => exact ih fs (by simpa [respEntriesChecks] using h) s hs
    | bool b => exact ih fs (by simpa [respEntriesChecks] using h) s hs
    | num n => exact ih fs (by simpa [respEntriesChecks] using h) s hs
    | str s2 => exact ih fs (by simpa [respEntriesChecks] using h) s hs
    | arr l => exact ih fs (by simpa [respEntriesChecks] using h) s hs

theorem opResponseChecks_no_dup (method p : String) (details : JObj)
    (fs : List String) (h : opResponseChecks method p details = some fs) :
    ∀ s ∈ fs, isDupMsg s = false := by
  intro s hs
  simp only [opResponseChecks] at h
  split at h
  · simp only [Option.some.injEq] at h
    subst h
    simp only [List.mem_singleton] at hs
    subst hs
    exact isDupMsg_opStem method p " has no responses defined."
  · simp only [Option.bind_eq_bind, Option.bind_eq_some, Option.some.injEq] at h
    obtain ⟨r, -, per, hper, h⟩ := h
    subst h
    simp only [List.mem_append] at hs
    rcases hs with ((hs | hs) | hs) | hs
    · rw [mem_ite_singleton hs]
      exact isDupMsg_opStem method p " missing 200/201 success response."
    · rw [mem_ite_singleton hs]
      exact isDupMsg_opStem method p " missing 4xx error responses."
    · rw [mem_ite_singleton hs]
      exact isDupMsg_opStem method p " missing 5xx error responses."
    · exact respEntriesChecks_no_dup method p r per hper s hs

theorem opSecurityCheck_no_dup (method p : String) (details : JObj) :
    ∀ s ∈ opSecurityCheck method p details, isDupMsg s = false := by
  intro s hs
  unfold opSecurityCheck at hs
  rw [mem_ite_singleton hs]
  exact isDupMsg_opStem method p " missing security definition."

/-! ## The seen-set invariant of the operations loop -/

theorem contains_append_singleton (seen : List HashKey) (k k' : HashKey) :
    (seen ++ [k]).contains k' = (seen.contains k' || k == k') := by
  by_cases h : k = k'
  · subst h
    simp [List.contains, List.elem_eq_mem, List.mem_append]
  · have hb : (k == k') = false := by simp [h]
    have hm2 : (k' ∈ seen ∨ k' ∈ [k]) ↔ k' ∈ seen :=
      or_iff_left (by simp [Ne.symm h])
    simp only [List.contains, List.elem_eq_mem, List.mem_append, hb, Bool.or_false]
    exact decide_eq_decide.mpr hm2

theorem opIdCheck_cases (method p : String) (details : JObj) (seen : List HashKey)
    (prior : List JValue) (idFs : List String) (seen' : List HashKey)
    (hinv : SeenInv seen prior)
    (h : opIdCheck method p details seen = some (idFs, seen')) :
    idFs.filter isDupMsg =
      laterDuplicatesAux prior
        (if truthy (pyGetN details "operationId") then [pyGetN details "operationId"]
         else []) ∧
    SeenInv seen'
      (prior ++ (if truthy (pyGetN details "operationId")
                 then [pyGetN details "operationId"] else [])) := by
  simp only [opIdCheck] at h
  by_cases ht : truthy (pyGetN details "operationId") = true
  · simp only [ht, Bool.not_true, Bool.false_eq_true, if_false, Option.map_eq_some',
      Prod.mk.injEq] at h
    obtain ⟨k, hk, hfs, hseen⟩ := h
    subst hfs
    rw [if_pos ht]
    have hpa : (prior.any fun w => keyEq w (pyGetN details "operationId")) =
        seen.contains k := by
      rw [hinv k]
      apply any_ext
      intro w hw
      unfold keyEq
      rw [hk]
      cases pyHash w with
      | none => simp
      | some a => simp
    constructor
    · simp only [laterDuplicatesAux, List.append_nil, hpa]
      by_cases hc : seen.contains k = true
      · rw [if_pos hc]
        simp [List.filter_cons, isDupMsg_true]
      · rw [if_neg hc]
        rfl
    · intro k'
      rw [← hseen]
      unfold pySetAdd
      rw [List.any_append, List.any_cons, List.any_nil, Bool.or_false, ← hinv k', hk]
      have hsome : ((some k : Option HashKey) == some k') = (k == k') := by
        by_cases hkk : k = k' <;> simp [hkk]
      rw [hsome]
      by_cases hc : seen.contains k = true
      · rw [if_pos hc]
        by_cases hkk : k = k'
        · subst hkk
          rw [hc, (by simp : (k == k) = true), Bool.or_true]
        · rw [(by simp [hkk] : (k == k') = false), Bool.or_false]
      · rw [if_neg hc]
        exact contains_append_singleton seen k k'
  · have ht' : truthy (pyGetN details "operationId") = false :=
      Bool.eq_false_iff.mpr ht
    simp only [ht', Bool.not_false, if_true, Option.some.injEq, Prod.mk.injEq] at h
    obtain ⟨hfs, hseen⟩ := h
    subst hfs
    rw [if_neg (by simp [ht'])]
    constructor
    · simp [laterDuplicatesAux, List.filter_cons, msgMissingOpId, isDupMsg_opStem]
    · rw [← hseen]
      simpa using hinv

theorem opChecks_dup (p method : String) (details : JObj) (seen : List HashKey)
    (prior : List JValue) (fs : List String) (seen' : List HashKey)
    (hm : httpMethods.contains (pyLower method) = true)
    (hinv : SeenInv seen prior)
    (h : opChecks p method details seen = some (fs, seen')) :
    fs.filter isDupMsg =
      laterDuplicatesAux prior
        (if truthy (pyGetN details "operationId") then [pyGetN details "operationId"]
         else []) ∧
    SeenInv seen'
      (prior ++ (if truthy (pyGetN details "operationId")
                 then [pyGetN details "operationId"] else [])) := by
  unfold opChecks at h
  simp only [Option.bind_eq_bind, Option.bind_eq_some, Option.some.injEq,
    Prod.mk.injEq] at h
  obtain ⟨⟨idFs, seen₁⟩, hid, idemFs, hidem, paramFs, hparam, rbFs, hrb, respFs, hresp,
    hfs, hseen⟩ := h
  subst hfs
  obtain ⟨hfil, hinv'⟩ :=
    opIdCheck_cases method p details seen prior idFs seen₁ hinv hid
  refine ⟨?_, hseen ▸ hinv'⟩
  have hdoc := filter_isDupMsg_nil (opDocChecks_no_dup method p details)
  have hbody := filter_isDupMsg_nil (opBodyChecks_no_dup method p details)
  have hidem' := filter_isDupMsg_nil (opIdemCheck_no_dup method p details idemFs hidem)
  have hpar := filter_isDupMsg_nil (opParamChecks_no_dup method p details paramFs hparam)
  have hrb' :=
    filter_isDupMsg_nil (opRequestBodyChecks_no_dup method p details rbFs hm hrb)
  have hresp' :=
    filter_isDupMsg_nil (opResponseChecks_no_dup method p details respFs hresp)
  have hsec := filter_isDupMsg_nil (opSecurityCheck_no_dup method p details)
  simp [List.filter_append, hdoc, hbody, hidem', hpar, hrb', hresp', hsec, hfil]

theorem processMethods_dup (p : String) :
    ∀ (ms : List (String × JValue)) (st st' : OpsState) (prior : List JValue),
      SeenInv st.seen prior →
      processMethods p ms st = some st' →
      st'.suggs.filter isDupMsg =
        st.suggs.filter isDupMsg ++
          laterDuplicatesAux prior (truthyOpidsOfMethods ms) ∧
      SeenInv st'.seen (prior ++ truthyOpidsOfMethods ms) := by
  intro ms
  induction ms with
  | nil =>
    intro st st' prior hinv h
    simp only [processMethods, Option.some.injEq] at h
    subst h
    refine ⟨by simp [truthyOpidsOfMethods, laterDuplicatesAux], ?_⟩
    simpa [truthyOpidsOfMethods] using hinv
  | cons q rest ih =>
    obtain ⟨method, dv⟩ := q
    intro st st' prior hinv h
    by_cases hm : httpMethods.contains (pyLower method) = true
    · cases dv with
      | obj details =>
        rw [processMethods, if_pos hm] at h
        simp only [Option.bind_eq_bind, Option.bind_eq_some] at h
        obtain ⟨⟨fs, seen₁⟩, hop, h⟩ := h
        obtain ⟨hfil, hinv'⟩ :=
          opChecks_dup p method details st.seen prior fs seen₁ hm hinv hop
        obtain ⟨hf₂, hi₂⟩ := ih ⟨st.count + 1, seen₁, st.suggs ++ fs⟩ st' _ hinv' h
        have hmem : pyLower method ∈ httpMethods := List.elem_iff.mp hm
        have hops : truthyOpidsOfMethods ((method, JValue.obj details) :: rest) =
            (if truthy (pyGetN details "operationId")
             then [pyGetN details "operationId"] else []) ++
              truthyOpidsOfMethods rest := by
          simp [truthyOpidsOfMethods, hmem]
        constructor
        · rw [hf₂, hops, laterDuplicatesAux_append]
          simp only [List.filter_append, hfil, List.append_assoc]
        · rw [hops]
          simpa [List.append_assoc] using hi₂
      | null =>
        have := ih st st' prior hinv (by simpa [processMethods, hm] using h)
        simpa [truthyOpidsOfMethods, laterDuplicatesAux] using this
      | bool b =>
        have := ih st st' prior hinv (by simpa [processMethods, hm] using h)
        simpa [truthyOpidsOfMethods, laterDuplicatesAux] using this
      | num n =>
        have := ih st st' prior hinv (by simpa [processMethods, hm] using h)
        simpa [truthyOpidsOfMethods, laterDuplicatesAux] using this
      | str s2 =>
        have := ih st st' prior hinv (by simpa [processMethods, hm] using h)
        simpa [truthyOpidsOfMethods, laterDuplicatesAux] using this
      | arr l =>
        have := ih st st' prior hinv (by simpa [processMethods, hm] using h)
        simpa [truthyOpidsOfMethods, laterDuplicatesAux] using this
    · have hnm : pyLower method ∉ httpMethods := fun hx => hm (List.elem_iff.mpr hx)
      cases dv with
      | obj details =>
        have := ih st st' prior hinv (by simpa [processMethods, hnm] using h)
        simpa [truthyOpidsOfMethods, hnm, laterDuplicatesAux] using this
      | null =>
        have := ih st st' prior hinv (by simpa [processMethods, hm] using h)
        simpa [truthyOpidsOfMethods, hnm, laterDuplicatesAux] using this
      | bool b =>
        have := ih st st' prior hinv (by simpa [processMethods, hm] using h)
        simpa [truthyOpidsOfMethods, hnm, laterDuplicatesAux] using this
      | num n =>
        have := ih st st' prior hinv (by simpa [processMethods, hm] using h)
        simpa [truthyOpidsOfMethods, hnm, laterDuplicatesAux] using this
      | str s2 =>
        have := ih st st' prior hinv (by simpa [processMethods, hm] using h)
        simpa [truthyOpidsOfMethods, hnm, laterDuplicatesAux] using this
      | arr l =>
        have := ih st st' prior hinv (by simpa [processMethods, hm] using h)
        simpa [truthyOpidsOfMethods, hnm, laterDuplicatesAux] using this

theorem processPaths_dup :
    ∀ (paths : List (String × JValue)) (st st' : OpsState) (prior : List JValue),
      SeenInv st.seen prior →
      processPaths paths st = some st' →
      st'.suggs.filter isDupMsg =
        st.suggs.filter isDupMsg ++ laterDuplicatesAux prior (truthyOpids paths) ∧
      SeenInv st'.seen (prior ++ truthyOpids paths) := by
  intro paths
  induction paths with
  | nil =>
    intro st st' prior hinv h
    simp only [processPaths, Option.some.injEq] at h
    subst h
    refine ⟨by simp [truthyOpids, laterDuplicatesAux], ?_⟩
    simpa [truthyOpids] using hinv
  | cons q rest ih =>
    obtain ⟨p, mv⟩ := q
    intro st st' prior hinv h
    cases mv with
    | obj ms =>
      simp only [processPaths, Option.bind_eq_bind, Option.bind_eq_some] at h
      obtain ⟨st₁, h₁, h₂⟩ := h
      obtain ⟨hf₁, hi₁⟩ := processMethods_dup p ms st st₁ prior hinv h₁
      obtain ⟨hf₂, hi₂⟩ := ih st₁ st' _ hi₁ h₂
      have hops : truthyOpids ((p, JValue.obj ms) :: rest) =
          truthyOpidsOfMethods ms ++ truthyOpids rest := by
        simp [truthyOpids]
      constructor
      · rw [hf₂, hf₁, hops, laterDuplicatesAux_append]
        simp [List.append_assoc]
      · rw [hops]
        simpa [List.append_assoc] using hi₂
    | null =>
      have := ih st st' prior hinv (by simpa [processPaths] using h)
      simpa [truthyOpids, laterDuplicatesAux] using this
    | bool b =>
      have := ih st st' prior hinv (by simpa [processPaths] using h)
      simpa [truthyOpids, laterDuplicatesAux] using this
    | num n =>
      have := ih st st' prior hinv (by simpa [processPaths] using h)
      simpa [truthyOpids, laterDuplicatesAux] using this
    | str s2 =>
      have := ih st st' prior hinv (by simpa [processPaths] using h)
      simpa [truthyOpids, laterDuplicatesAux] using this
    | arr l =>
      have := ih st st' prior hinv (by simpa [processPaths] using h)
      simpa [truthyOpids, laterDuplicatesAux] using this

theorem specPathsObj_of_asObj (spec : JObj) (pathsD : JObj)
    (h : asObj (pyOr (pyGetN spec "paths") (.obj [])) = some pathsD) :
    specPathsObj spec = pathsD := by
  unfold specPathsObj
  cases hv : pyOr (pyGetN spec "paths") (JValue.obj []) with
  | obj l =>
    rw [hv] at h
    injection h with h
  | null => rw [hv] at h; exact absurd h (by simp [asObj])
  | bool b => rw [hv] at h; exact absurd h (by simp [asObj])
  | num n => rw [hv] at h; exact absurd h (by simp [asObj])
  | str s => rw [hv] at h; exact absurd h (by simp [asObj])
  | arr l => rw [hv] at h; exact absurd h (by simp [asObj])

/-- C5: the duplicate-operationId findings of a successful evaluation are
exactly one finding (naming the value) per truthy operationId occurrence
that has a pyEq-equal earlier occurrence anywhere in the document, in
evaluation order; first occurrences never produce one.  Uniqueness is
tracked by a single set across all operations of the document. -/
theorem duplicate_opid_findings (env : ValidatorEnv) (spec : JObj)
    (r : AnalysisResult) (h : analyze_openapi_spec env spec = some r) :
    r.suggestions.filter isDupMsg =
      laterDuplicates (truthyOpids (specPathsObj spec)) := by
  unfold analyze_openapi_spec analyzeSpecST at h
  simp only [Option.map_eq_some', Option.bind_eq_bind, Option.bind_eq_some,
    Option.some.injEq] at h
  obtain ⟨⟨r₀, d⟩, h, hr⟩ := h
  obtain ⟨s1, h1, h⟩ := h
  obtain ⟨s2, h2, h⟩ := h
  obtain ⟨s4, h4, h⟩ := h
  obtain ⟨pathsD, hp, h⟩ := h
  obtain ⟨st, hst, h⟩ := h
  obtain ⟨s7, h7, h⟩ := h
  obtain ⟨s8, h8, h⟩ := h
  subst hr
  simp only [Prod.mk.injEq] at h
  obtain ⟨hr₀, -⟩ := h
  rw [← hr₀]
  have hops := processPaths_dup pathsD ⟨opsCountInitial pathsD, [], []⟩ st []
    (fun k => rfl) hst
  simp only [List.filter_append]
  rw [validator_no_dup env spec, infoChecks_no_dup spec s1 h1,
    serverChecks_no_dup spec s2 h2, globalSecurityCheck_no_dup spec,
    securitySchemesChecks_no_dup _ s4 h4, pathsKeyChecks_no_dup pathsD,
    schemaChecks_no_dup _ s7 h7, extraChecksPhase_no_dup pathsD s8 h8,
    specPathsObj_of_asObj spec pathsD hp]
  have hstf : st.suggs.filter isDupMsg = laterDuplicates (truthyOpids pathsD) := by
    rw [hops.1]
    simp [laterDuplicates]
  simp [hstf]

theorem duplicate_opid_findings_witness :
    (analyze_openapi_spec envOk docDupIds).map
      (fun r => r.suggestions.filter isDupMsg) =
      some (laterDuplicates (truthyOpids (specPathsObj docDupIds))) ∧
    laterDuplicates (truthyOpids (specPathsObj docDupIds)) =
      [msgDupOpId (JValue.str "x")] := by
  constructor
  · cases h : analyze_openapi_spec envOk docDupIds with
    | none => exact absurd h (by decide)
    | some r => simp [duplicate_opid_findings envOk docDupIds r h]
  · decide

end ApyGuard
